import Mathlib

/-!
Shallow embedding of the StackAttack falling-block game core
(src/src/core/game.rs, src/src/player.rs, src/src/core/block.rs,
src/src/core/types.rs) and verification of the frozen claims.

Modelling conventions:
* `usize` grid coordinates become `Nat`; the `as isize`/`as usize` casts in
  the movement code become `Int` arithmetic followed by `Int.toNat` (the
  casts are guarded by the same boundary checks as in the source).
* Wall-clock time (`Instant`, refresh-rate gating) is external to the core;
  the timer outcome is passed in as a `Bool` argument (`fired` for
  `update`, `move_ready` for `process_input`).
* The thread RNG used by `spawn_random_block` is externalized as a stream
  of raw draws (`rng : List Nat`); a draw `v` yields the column
  `v % grid_size`, mirroring `gen_range(0..grid_size)`'s range guarantee.
* The self-recursive fixpoint loops of the source
  (`check_for_levitating_blocks`, the pushable-set growth loop) are written
  with explicit fuel; lemmas below prove the chosen fuel always reaches the
  fixpoint, which is the formal counterpart of the termination of the
  source's unbounded recursion.
-/

set_option maxHeartbeats 1000000
set_option linter.unusedVariables false

namespace StackAttack

/-- Direction of movement (src/src/core/types.rs): positive = right, negative = left. -/
abbrev Direction := Int

/-- `Block` (src/src/core/block.rs). -/
structure Block where
  position : Nat × Nat
  falling : Bool
  carried : Bool
  carrying_direction : Option Direction
deriving DecidableEq, Repr

/-- `Block::new` (src/src/core/block.rs). -/
def Block.new (position : Nat × Nat) : Block :=
  { position := position, falling := true, carried := false, carrying_direction := none }

/-- Default block returned by out-of-range index accesses; all call sites use
in-range indices, so this value is never observed. -/
def defBlock : Block := Block.new (0, 0)

/-- `spawn_random_block` (src/src/core/block.rs); the random draw is the
argument `v`, reduced mod `grid_size` to mirror `gen_range(0..grid_size)`. -/
def spawn_random_block (grid_size : Nat) (v : Nat) : Block :=
  Block.new (v % grid_size, 0)

/-- `FALL_DELAY` (src/src/player.rs). -/
def FALL_DELAY : Nat := 3

/-- `Player` (src/src/player.rs). -/
structure Player where
  position : Nat × Nat
  in_air : Bool
  is_falling : Bool
  jump_counter : Nat
  just_jumped : Bool
  body_size : Nat
  fall_delay_counter : Nat
  grid_size : Nat
deriving DecidableEq, Repr

/-- `Player::new` (src/src/player.rs). -/
def Player.new (grid_size : Nat) : Player :=
  let body_height := 2
  let start_x := if grid_size % 2 = 0 then grid_size / 2 - 1 else grid_size / 2
  { position := (start_x, grid_size - body_height)
    in_air := false
    is_falling := false
    jump_counter := 0
    just_jumped := false
    body_size := body_height
    fall_delay_counter := 0
    grid_size := grid_size }

/-- `Player::jump` (src/src/player.rs). -/
def Player.jump (p : Player) : Player :=
  if p.in_air = false ∧ p.is_falling = false ∧ 0 < p.position.2 then
    { p with position := (p.position.1, p.position.2 - 1)
             in_air := true
             jump_counter := 1
             just_jumped := true }
  else p

/-- `Player::update_jump` (src/src/player.rs). -/
def Player.update_jump (p : Player) : Player :=
  if p.just_jumped = true then { p with just_jumped := false }
  else if p.in_air = true ∧ 0 < p.jump_counter then
    { p with jump_counter := p.jump_counter - 1 }
  else p

/-- `Player::has_support` (src/src/player.rs). -/
def Player.has_support (p : Player) (blocks : List Block) (grid_size : Nat) : Bool :=
  if grid_size - p.body_size ≤ p.position.2 then true
  else blocks.any fun b =>
    !b.falling && b.position.1 == p.position.1 && b.position.2 == p.position.2 + p.body_size

/-- `Player::update_falling_state` (src/src/player.rs). -/
def Player.update_falling_state (p : Player) (blocks : List Block) (grid_size : Nat) : Player :=
  if p.in_air = true then p
  else if p.has_support blocks grid_size = false then
    if p.is_falling = false ∧ p.fall_delay_counter = 0 then
      { p with fall_delay_counter := FALL_DELAY }
    else p
  else { p with is_falling := false, fall_delay_counter := 0 }

/-- `Player::apply_gravity` (src/src/player.rs); the `position.1 < usize::MAX - 1`
overflow guard is vacuous over `Nat` and omitted. -/
def Player.apply_gravity (p : Player) : Player :=
  if p.is_falling = true then { p with position := (p.position.1, p.position.2 + 1) } else p

/-- `Player::update_fall_delay` (src/src/player.rs). -/
def Player.update_fall_delay (p : Player) : Player :=
  if 0 < p.fall_delay_counter then
    let c := p.fall_delay_counter - 1
    if c = 0 ∧ p.in_air = false then { p with fall_delay_counter := c, is_falling := true }
    else { p with fall_delay_counter := c }
  else p

/-- `Player::land` (src/src/player.rs): the two `if` statements run in sequence
on the same mutable player, so the second reads the state left by the first. -/
def Player.land (p : Player) (blocks : List Block) (grid_size : Nat) : Player :=
  let p1 :=
    if p.in_air = true ∧ p.jump_counter = 0 ∧ p.just_jumped = false then
      if p.has_support blocks grid_size = false then
        { p with in_air := false, is_falling := true }
      else { p with in_air := false }
    else p
  if p1.is_falling = true ∧ p1.has_support blocks grid_size = true then
    { p1 with is_falling := false }
  else p1

/-- `Player::can_move_in_direction` (src/src/player.rs). -/
def Player.can_move_in_direction (p : Player) (move_by : Int) (grid_size : Nat) : Bool :=
  if move_by < 0 then decide (0 < p.position.1) else decide (p.position.1 < grid_size - 1)

/-- `Player::find_blocking_block` (src/src/player.rs): first index of a block at
`(target_x, position.y + body_part)`, scanning body parts from the head down. -/
def Player.find_blocking_block (p : Player) (target_x : Nat) (blocks : List Block) : Option Nat :=
  (List.range p.body_size).foldl
    (fun acc body_part =>
      match acc with
      | some i => some i
      | none => blocks.findIdx? fun b => decide (b.position = (target_x, p.position.2 + body_part)))
    none

/-- `Player::can_block_move_in_direction` (src/src/player.rs). -/
def Player.can_block_move_in_direction (block_x : Nat) (move_by : Int) (grid_size : Nat) : Bool :=
  if move_by < 0 then decide (0 < block_x) else decide (block_x < grid_size - 1)

/-- `Player::handle_falling_block_movement` (src/src/player.rs). -/
def Player.handle_falling_block_movement (p : Player) (block_idx : Nat)
    (block_target_x player_target_x : Nat) (blocks : List Block) : Player × List Block :=
  let target := (block_target_x, (blocks.getD block_idx defBlock).position.2)
  let is_block_blocked := blocks.any fun b => decide (b.position = target)
  let is_player_blocked := blocks.enum.any fun ib =>
    decide (ib.1 ≠ block_idx) &&
      ((List.range p.body_size).any fun body_part =>
        !(body_part == 0 && decide (ib.2.position = (player_target_x, p.position.2))) &&
        decide (ib.2.position = (player_target_x, p.position.2 + body_part)))
  if is_block_blocked = false ∧ is_player_blocked = false then
    let b := blocks.getD block_idx defBlock
    let b' :=
      if b.position.2 = p.position.2 then
        { b with carried := true
                 carrying_direction := some (((block_target_x : Int) - (b.position.1 : Int)).sign) }
      else b
    ({ p with position := (player_target_x, p.position.2) },
     blocks.set block_idx { b' with position := (block_target_x, b'.position.2) })
  else (p, blocks)

/-- Stable insertion of an `(index, y)` pair into a list ascending by `y`,
placing it after existing pairs with equal `y`. -/
def insertByY (x : Nat × Nat) : List (Nat × Nat) → List (Nat × Nat)
  | [] => [x]
  | y :: ys => if x.2 < y.2 then x :: y :: ys else y :: insertByY x ys

/-- Stable sort by the second component, mirroring `sort_by_key(|&(_, y)| y)`. -/
def sortByY (l : List (Nat × Nat)) : List (Nat × Nat) :=
  l.foldl (fun acc x => insertByY x acc) []

/-- One step of the pushable-set growth loop in `find_pushable_blocks`
(src/src/player.rs), for a single `column_blocks` entry `ib = (index, y)`:
skip if already pushable or `y > player_bottom`; add if `y > 0` and the
pushable y-coordinates contain `y + 1`. -/
def growStep (player_bottom : Nat) (st : List Nat × List Nat × Bool) (ib : Nat × Nat) :
    List Nat × List Nat × Bool :=
  if st.1.contains ib.1 then st
  else if player_bottom < ib.2 then st
  else if 0 < ib.2 ∧ st.2.1.contains (ib.2 + 1) = true then
    (st.1 ++ [ib.1], st.2.1 ++ [ib.2], true)
  else st

/-- One pass of the pushable-set growth loop in `find_pushable_blocks`
(src/src/player.rs): scans `column_blocks`, adding every not-yet-pushable block
with `y ≤ player_bottom`, `y > 0` and a pushable y-coordinate at `y + 1`;
returns the grown index list, y-coordinate list, and whether anything was added. -/
def growPassOnce (column_blocks : List (Nat × Nat)) (player_bottom : Nat)
    (idxs ys : List Nat) : List Nat × List Nat × Bool :=
  column_blocks.foldl (growStep player_bottom) (idxs, ys, false)

/-- The `while new_pushable_found` loop of `find_pushable_blocks`, with explicit
fuel; `findPushableLoop_fixed` below shows the fuel used always suffices. -/
def findPushableLoop (column_blocks : List (Nat × Nat)) (player_bottom : Nat) :
    Nat → List Nat → List Nat → List Nat
  | 0, idxs, _ => idxs
  | fuel + 1, idxs, ys =>
    let r := growPassOnce column_blocks player_bottom idxs ys
    if r.2.2 then findPushableLoop column_blocks player_bottom fuel r.1 r.2.1
    else r.1

/-- The `column_blocks` collection of `find_pushable_blocks` (src/src/player.rs):
the `(index, y)` pairs of the resting blocks in column `block_x`, sorted by `y`
ascending. -/
def columnBlocks (block_x : Nat) (blocks : List Block) : List (Nat × Nat) :=
  sortByY <| blocks.enum.filterMap fun ib =>
    if ib.2.position.1 = block_x ∧ ib.2.falling = false then some (ib.1, ib.2.position.2)
    else none

/-- `Player::find_pushable_blocks` (src/src/player.rs). -/
def Player.find_pushable_blocks (p : Player) (block_x : Nat) (blocks : List Block) :
    List Nat :=
  let player_top := p.position.2
  let player_bottom := p.position.2 + p.body_size - 1
  let column_blocks := columnBlocks block_x blocks
  let seeds := column_blocks.filter fun ib => decide (player_top ≤ ib.2 ∧ ib.2 ≤ player_bottom)
  let pushable_indices := seeds.map (fun ib => ib.1)
  if pushable_indices.isEmpty then pushable_indices
  else
    findPushableLoop column_blocks player_bottom (column_blocks.length + 1)
      pushable_indices (seeds.map (fun ib => ib.2))

/-- `Player::is_path_clear_for_blocks` (src/src/player.rs). -/
def Player.is_path_clear_for_blocks (pushable_indices : List Nat) (target_x : Nat)
    (blocks : List Block) : Bool :=
  pushable_indices.all fun idx =>
    blocks.enum.all fun ib =>
      !(decide (ib.2.position = (target_x, (blocks.getD idx defBlock).position.2)) &&
        !pushable_indices.contains ib.1)

/-- `Player::handle_normal_block_movement` (src/src/player.rs). -/
def Player.handle_normal_block_movement (p : Player)
    (block_x block_target_x player_target_x : Nat) (blocks : List Block) :
    Player × List Block :=
  let pushable_indices := p.find_pushable_blocks block_x blocks
  if pushable_indices.isEmpty then (p, blocks)
  else if Player.is_path_clear_for_blocks pushable_indices block_target_x blocks = false then
    (p, blocks)
  else
    let blocks' := pushable_indices.foldl
      (fun bs idx =>
        let b := bs.getD idx defBlock
        bs.set idx { b with position := (block_target_x, b.position.2) })
      blocks
    ({ p with position := (player_target_x, p.position.2) }, blocks')

/-- `Player::handle_block_collision` (src/src/player.rs). -/
def Player.handle_block_collision (p : Player) (block_idx : Nat) (move_by : Int)
    (target_x grid_size : Nat) (blocks : List Block) : Player × List Block :=
  let b := blocks.getD block_idx defBlock
  if Player.can_block_move_in_direction b.position.1 move_by grid_size = false then (p, blocks)
  else
    let block_target_x := ((b.position.1 : Int) + move_by).toNat
    if b.falling then p.handle_falling_block_movement block_idx block_target_x target_x blocks
    else p.handle_normal_block_movement b.position.1 block_target_x target_x blocks

/-- `Player::check_support_after_move` (src/src/player.rs). -/
def Player.check_support_after_move (p : Player) (grid_size : Nat) (blocks : List Block) :
    Player :=
  if p.in_air = false ∧ p.is_falling = false ∧ p.has_support blocks grid_size = false then
    { p with fall_delay_counter := FALL_DELAY }
  else p

/-- `Player::move_horizontal` (src/src/player.rs). -/
def Player.move_horizontal (p : Player) (move_by : Int) (grid_size : Nat)
    (blocks : List Block) : Player × List Block :=
  if 0 < p.fall_delay_counter then (p, blocks)
  else if p.can_move_in_direction move_by grid_size = false then (p, blocks)
  else
    let target_x := ((p.position.1 : Int) + move_by).toNat
    let pr :=
      match p.find_blocking_block target_x blocks with
      | some block_idx => p.handle_block_collision block_idx move_by target_x grid_size blocks
      | none => ({ p with position := (target_x, p.position.2) }, blocks)
    (pr.1.check_support_after_move grid_size pr.2, pr.2)

/-- `Player::release_carried_blocks` (src/src/player.rs). -/
def release_carried_blocks (blocks : List Block) (current_direction : Option Int) :
    List Block :=
  blocks.map fun b =>
    if b.carried = true ∧ current_direction ≠ b.carrying_direction then
      { b with carried := false, falling := true, carrying_direction := none }
    else b

/-- `Player::move_left` (src/src/player.rs). -/
def Player.move_left (p : Player) (blocks : List Block) : Player × List Block :=
  p.move_horizontal (-1) p.grid_size blocks

/-- `Player::move_right` (src/src/player.rs). -/
def Player.move_right (p : Player) (blocks : List Block) : Player × List Block :=
  p.move_horizontal 1 p.grid_size blocks

/-- `InputAction` (src/src/core/types.rs). -/
inductive InputAction where
  | Left
  | Right
  | Up
  | Restart
  | None
deriving DecidableEq, Repr

/-- `GameUpdateResult` (src/src/core/types.rs). -/
inductive GameUpdateResult where
  | Continue
  | GameOver
  | Restart
deriving DecidableEq, Repr

/-- `GameConfig` (src/src/core/types.rs); `cell_size : f32` is pure
configuration data never computed on, carried as an opaque `Nat`. -/
structure GameConfig where
  grid_size : Nat
  cell_size : Nat
  refresh_rate_milliseconds : Nat
  block_fall_speed : Nat
  block_spawn_rate : Nat
deriving DecidableEq, Repr

/-- `GameState` (src/src/core/game.rs); the `Instant` timer fields are
external wall-clock state and are replaced by the `Bool` timer arguments of
`update`/`process_input`; `rng` is the externalized randomness stream. -/
structure GameState where
  grid_size : Nat
  cell_size : Nat
  player : Player
  refresh_rate_milliseconds : Nat
  blocks : List Block
  block_fall_speed : Nat
  block_spawn_rate : Nat
  block_spawn_counter : Nat
  game_over : Bool
  score : Nat
  last_move_direction : Option Int
  rng : List Nat
deriving DecidableEq, Repr

/-- `GameState::spawn_block` (src/src/core/game.rs). -/
def GameState.spawn_block (g : GameState) : GameState :=
  { g with blocks := g.blocks ++ [spawn_random_block g.grid_size (g.rng.headD 0)]
           rng := g.rng.tail }

/-- `GameState::new` (src/src/core/game.rs). -/
def GameState.new (config : GameConfig) (rng : List Nat) : GameState :=
  GameState.spawn_block
    { grid_size := config.grid_size
      cell_size := config.cell_size
      player := Player.new config.grid_size
      refresh_rate_milliseconds := config.refresh_rate_milliseconds
      blocks := []
      block_fall_speed := config.block_fall_speed
      block_spawn_rate := config.block_spawn_rate
      block_spawn_counter := 0
      game_over := false
      score := 0
      last_move_direction := none
      rng := rng }

/-- `GameState::restart` (src/src/core/game.rs). -/
def GameState.restart (g : GameState) : GameState :=
  GameState.spawn_block
    { g with player := Player.new g.grid_size
             blocks := []
             block_spawn_counter := 0
             game_over := false
             score := 0
             last_move_direction := none }

/-- The support test of `check_for_levitating_blocks` (src/src/core/game.rs):
is there a resting block at `(x, y + 1)`? -/
def hasSupportAt (blocks : List Block) (x y : Nat) : Bool :=
  blocks.any fun b => !b.falling && b.position.1 == x && b.position.2 == y + 1

/-- One in-place pass of `check_for_levitating_blocks` (src/src/core/game.rs),
scanning indices from `i` upward; flips unsupported resting blocks to falling
and reports whether any block changed.  Support checks see the flips already
made earlier in the same pass, exactly as in the source's mutable loop.  The
first argument is structural fuel; every call supplies at least
`blocks.length - i`, which makes it equivalent to the source's plain loop. -/
def levPassFrom (grid_size : Nat) : Nat → List Block → Nat → List Block × Bool
  | 0, blocks, _ => (blocks, false)
  | fuel + 1, blocks, i =>
    if h : i < blocks.length then
      let b := blocks.get ⟨i, h⟩
      if b.falling then levPassFrom grid_size fuel blocks (i + 1)
      else if grid_size - 1 ≤ b.position.2 then levPassFrom grid_size fuel blocks (i + 1)
      else if hasSupportAt blocks b.position.1 b.position.2 then
        levPassFrom grid_size fuel blocks (i + 1)
      else
        let r := levPassFrom grid_size fuel (blocks.set i { b with falling := true }) (i + 1)
        (r.1, true)
    else (blocks, false)

/-- One full pass of `check_for_levitating_blocks` over all indices. -/
def levPass (grid_size : Nat) (blocks : List Block) : List Block × Bool :=
  levPassFrom grid_size blocks.length blocks 0

/-- The self-recursion of `check_for_levitating_blocks`, with explicit fuel;
`levLoop_fixed` below shows the fuel used always suffices, which is the formal
counterpart of the source recursion's termination. -/
def levLoop (grid_size : Nat) : Nat → List Block → List Block
  | 0, blocks => blocks
  | fuel + 1, blocks =>
    let r := levPass grid_size blocks
    if r.2 then levLoop grid_size fuel r.1 else r.1

/-- `GameState::check_for_levitating_blocks` (src/src/core/game.rs), as a
function on the block list. -/
def checkForLevitatingBlocks (grid_size : Nat) (blocks : List Block) : List Block :=
  levLoop grid_size (blocks.countP (fun b => !b.falling) + 1) blocks

/-- `GameState::check_for_levitating_blocks` (src/src/core/game.rs). -/
def GameState.check_for_levitating_blocks (g : GameState) : GameState :=
  { g with blocks := checkForLevitatingBlocks g.grid_size g.blocks }

/-- The bottom-up row scan of `check_full_rows` (src/src/core/game.rs). -/
def checkRowsAux (g : GameState) : List Nat → GameState
  | [] => g
  | row :: rest =>
    let blocks_in_row := g.blocks.countP fun b => !b.falling && b.position.2 == row
    if blocks_in_row = g.grid_size then
      GameState.check_for_levitating_blocks
        { g with blocks := g.blocks.filter (fun b => b.position.2 != row)
                 score := g.score + 1 }
    else checkRowsAux g rest

/-- `GameState::check_full_rows` (src/src/core/game.rs). -/
def GameState.check_full_rows (g : GameState) : GameState :=
  checkRowsAux g (List.range g.grid_size).reverse

/-- `GameState::check_block_block_collision` (src/src/core/game.rs). -/
def check_block_block_collision (blocks : List Block) (block_idx x new_y : Nat) : Bool :=
  blocks.enum.any fun jb =>
    decide (block_idx ≠ jb.1) && !jb.2.falling && decide (jb.2.position = (x, new_y))

/-- The loop of `update_falling_blocks` (src/src/core/game.rs), scanning block
indices from `i` upward; the returned flag is whether the block-player
collision fired (`game_over`), in which case the scan stops immediately.  The
first argument is structural fuel; every call supplies at least
`blocks.length - i`, which makes it equivalent to the source's plain loop. -/
def updFallFrom (player_x player_y grid_size speed : Nat) :
    Nat → List Block → Nat → List Block × Bool
  | 0, blocks, _ => (blocks, false)
  | fuel + 1, blocks, i =>
    if h : i < blocks.length then
      let b := blocks.get ⟨i, h⟩
      if b.carried then updFallFrom player_x player_y grid_size speed fuel blocks (i + 1)
      else if b.falling = false then
        updFallFrom player_x player_y grid_size speed fuel blocks (i + 1)
      else
        let x := b.position.1
        let y := b.position.2
        let new_y := y + speed
        if x = player_x ∧ new_y = player_y then (blocks, true)
        else if grid_size ≤ new_y then
          updFallFrom player_x player_y grid_size speed fuel
            (blocks.set i { b with position := (x, grid_size - 1), falling := false }) (i + 1)
        else if check_block_block_collision blocks i x new_y then
          updFallFrom player_x player_y grid_size speed fuel
            (blocks.set i { b with falling := false }) (i + 1)
        else
          updFallFrom player_x player_y grid_size speed fuel
            (blocks.set i { b with position := (x, new_y) }) (i + 1)
    else (blocks, false)

/-- `GameState::update_falling_blocks` (src/src/core/game.rs). -/
def GameState.update_falling_blocks (g : GameState) : GameState :=
  let r := updFallFrom g.player.position.1 g.player.position.2 g.grid_size
    g.block_fall_speed g.blocks.length g.blocks 0
  { g with blocks := r.1, game_over := g.game_over || r.2 }

/-- `GameState::handle_block_spawning` (src/src/core/game.rs). -/
def GameState.handle_block_spawning (g : GameState) : GameState :=
  let c := g.block_spawn_counter + 1
  if g.block_spawn_rate ≤ c then
    { (GameState.spawn_block g) with block_spawn_counter := 0 }
  else { g with block_spawn_counter := c }

/-- `GameState::update_blocks` (src/src/core/game.rs). -/
def GameState.update_blocks (g : GameState) : GameState :=
  (((g.update_falling_blocks).handle_block_spawning).check_for_levitating_blocks).check_full_rows

/-- `GameState::update_player` (src/src/core/game.rs). -/
def GameState.update_player (g : GameState) : GameState :=
  let p := g.player.update_jump
  let p := p.update_fall_delay
  let p := p.update_falling_state g.blocks g.grid_size
  let p := if p.is_falling then p.apply_gravity else p
  let p := p.land g.blocks g.grid_size
  { g with player := p }

/-- The common tail of the non-restart branches of `process_input`
(src/src/core/game.rs): release carried blocks against the recorded move
direction, then re-run the levitation check. -/
def processInputTail (g : GameState) : GameState × GameUpdateResult :=
  let bs := release_carried_blocks g.blocks g.last_move_direction
  (GameState.check_for_levitating_blocks { g with blocks := bs }, GameUpdateResult.Continue)

/-- `GameState::process_input` (src/src/core/game.rs); `move_ready` stands for
the external `last_move_time.elapsed() >= refresh_rate` timer test. -/
def GameState.process_input (g : GameState) (action : InputAction) (move_ready : Bool) :
    GameState × GameUpdateResult :=
  if g.game_over then
    if action = InputAction.Restart then (g.restart, GameUpdateResult.Restart)
    else (g, GameUpdateResult.GameOver)
  else
    match action with
    | InputAction.Left =>
      processInputTail <|
        if move_ready then
          let pr := g.player.move_left g.blocks
          { g with last_move_direction := some (-1), player := pr.1, blocks := pr.2 }
        else g
    | InputAction.Right =>
      processInputTail <|
        if move_ready then
          let pr := g.player.move_right g.blocks
          { g with last_move_direction := some 1, player := pr.1, blocks := pr.2 }
        else g
    | InputAction.Up =>
      processInputTail { g with player := g.player.jump }
    | InputAction.Restart => (g.restart, GameUpdateResult.Restart)
    | InputAction.None =>
      processInputTail
        { g with blocks := release_carried_blocks g.blocks none, last_move_direction := none }

/-- `GameState::update` (src/src/core/game.rs); `fired` stands for the external
`last_update.elapsed() >= refresh_rate` timer test. -/
def GameState.update (g : GameState) (fired : Bool) : GameState × GameUpdateResult :=
  if g.game_over then (g, GameUpdateResult.GameOver)
  else
    let g' := if fired then (g.update_player).update_blocks else g
    if g'.game_over then (g', GameUpdateResult.GameOver) else (g', GameUpdateResult.Continue)

/-! ### Helper lemmas -/

theorem check_support_after_move_position (p : Player) (grid_size : Nat) (blocks : List Block) :
    (p.check_support_after_move grid_size blocks).position = p.position := by
  unfold Player.check_support_after_move
  split <;> rfl

/-! ### Claim C1 -/

/-- Concrete input refuting C1 as stated: with `block_fall_speed = 2`, the
falling uncarried block at `(0, 4)` steps to `(0, 6)`, the cell of the body of
the player standing at `(0, 5)` with `body_size = 2` (occupied cells `(0, 5)`
and `(0, 6)`), yet the falling-block pass does not set `game_over`. -/
def gC1 : GameState :=
  { grid_size := 10
    cell_size := 1
    player :=
      { position := (0, 5), in_air := false, is_falling := false, jump_counter := 0,
        just_jumped := false, body_size := 2, fall_delay_counter := 0, grid_size := 10 }
    refresh_rate_milliseconds := 100
    blocks := [{ position := (0, 4), falling := true, carried := false, carrying_direction := none }]
    block_fall_speed := 2
    block_spawn_rate := 100
    block_spawn_counter := 0
    game_over := false
    score := 0
    last_move_direction := none
    rng := [] }

/-- C1 counterexample: in `gC1` the falling block's fall step lands in the
player's column on one of the player's occupied cells (its body row
`position.2 + 1`), but `update_falling_blocks` leaves `game_over = false` and
advances the block into that cell, refuting the claim's "any of the player's
body_size occupied cells". -/
theorem claim_C1_counterexample :
    (gC1.blocks.getD 0 defBlock).falling = true ∧
    (gC1.blocks.getD 0 defBlock).carried = false ∧
    (gC1.blocks.getD 0 defBlock).position.1 = gC1.player.position.1 ∧
    (gC1.blocks.getD 0 defBlock).position.2 + gC1.block_fall_speed = gC1.player.position.2 + 1 ∧
    gC1.player.body_size = 2 ∧
    gC1.game_over = false ∧
    (gC1.update_falling_blocks).game_over = false ∧
    ((gC1.update_falling_blocks).blocks.getD 0 defBlock).position =
      (gC1.player.position.1, gC1.player.position.2 + 1) := by
  decide

/-- C1 (amended): during the falling-block pass, when the pass reaches a block
(at index `i`, current block list `blocks`) that is falling and not carried and
whose fall step lands exactly on the player's *head* cell
(`x = player_x` and `y + speed = player_y`), the pass sets `game_over` and
aborts immediately: the result is the current block list unchanged — no
remaining block (including this one) is advanced or landed. -/
theorem claim_C1_amended (player_x player_y grid_size speed fuel : Nat) (blocks : List Block)
    (i : Nat) (hi : i < blocks.length)
    (hc : blocks[i].carried = false)
    (hf : blocks[i].falling = true)
    (hx : blocks[i].position.1 = player_x)
    (hy : blocks[i].position.2 + speed = player_y) :
    updFallFrom player_x player_y grid_size speed (fuel + 1) blocks i = (blocks, true) := by
  rw [updFallFrom]
  simp only [hi, dif_pos, List.get_eq_getElem, hc, hf]
  simp [hx, hy]

/-- Witness for C1 (amended) at a concrete input. -/
theorem claim_C1_witness :
    updFallFrom 0 5 10 2 1
      [{ position := (0, 3), falling := true, carried := false, carrying_direction := none }] 0 =
    ([{ position := (0, 3), falling := true, carried := false, carrying_direction := none }],
      true) :=
  claim_C1_amended 0 5 10 2 0 _ 0 (by decide) rfl rfl rfl rfl

/-! ### Claim C2 -/

/-- The configuration of the C2 failing run: 3×3 grid, fall speed 1, a spawn
every tick. -/
def cfgC2 : GameConfig :=
  { grid_size := 3, cell_size := 1, refresh_rate_milliseconds := 100,
    block_fall_speed := 1, block_spawn_rate := 1 }

/-- The C2 failing run: start a fresh game whose random draws always pick
column 0 and run four physics ticks. -/
def gC2 : GameState :=
  ((((GameState.new cfgC2 [0, 0, 0, 0, 0, 0]).update true).1.update
    true).1.update true).1.update true |>.1

/-- C2 failing input: starting from `GameState::new` on a 3×3 grid with fall
speed 1 and a spawn each tick, always spawning in column 0 (away from the
player in column 1), after the fourth completed tick two distinct resting
blocks occupy cell `(0, 0)` — the block that spawned onto the already full
column 0 stopped in place on top of the resting block occupying the same
cell — and the game is not over, refuting the resting-blocks-don't-overlap
invariant claimed for every completed tick. -/
theorem claim_C2_code_bug :
    gC2.game_over = false ∧
    gC2.blocks.map (fun b => (b.position, b.falling)) =
      [((0, 2), false), ((0, 1), false), ((0, 0), false), ((0, 0), false), ((0, 0), true)] ∧
    ¬ ((gC2.blocks.filter fun b => !b.falling).map (fun b => b.position)).Nodup := by
  refine ⟨rfl, rfl, ?_⟩
  decide

/-! ### Claim C6 -/

/-- C6: a push attempt (horizontal move whose first blocking block is resting)
for which `is_path_clear_for_blocks` reports some pushable block's destination
occupied by a block outside the pushable set changes no block and leaves the
player's position unchanged. -/
theorem claim_C6_push_atomicity (p : Player) (move_by : Int) (grid_size : Nat)
    (blocks : List Block) (idx : Nat)
    (hfind : p.find_blocking_block (((p.position.1 : Int) + move_by).toNat) blocks = some idx)
    (hrest : (blocks.getD idx defBlock).falling = false)
    (hblocked :
      Player.is_path_clear_for_blocks
        (p.find_pushable_blocks (blocks.getD idx defBlock).position.1 blocks)
        ((((blocks.getD idx defBlock).position.1 : Int) + move_by).toNat) blocks = false) :
    (p.move_horizontal move_by grid_size blocks).1.position = p.position ∧
    (p.move_horizontal move_by grid_size blocks).2 = blocks := by
  simp only [Player.move_horizontal, hfind, Player.handle_block_collision, hrest,
    Bool.false_eq_true, if_false, Player.handle_normal_block_movement, hblocked, if_true]
  split
  · exact ⟨rfl, rfl⟩
  · split
    · exact ⟨rfl, rfl⟩
    · split
      · exact ⟨check_support_after_move_position .., rfl⟩
      · split
        · exact ⟨check_support_after_move_position .., rfl⟩
        · exact ⟨check_support_after_move_position .., rfl⟩

/-- Witness for C6: the spec's concrete blocked-push scenario — player at
`(2, 8)` pushing right into a resting block at `(3, 8)` whose destination
`(4, 8)` is occupied by a resting block outside the pushable set. -/
theorem claim_C6_witness :
    ((Player.move_horizontal
        { position := (2, 8), in_air := false, is_falling := false, jump_counter := 0,
          just_jumped := false, body_size := 2, fall_delay_counter := 0, grid_size := 10 }
        1 10
        [{ position := (3, 8), falling := false, carried := false, carrying_direction := none },
         { position := (4, 8), falling := false, carried := false, carrying_direction := none }]).1.position
      = (2, 8)) ∧
    ((Player.move_horizontal
        { position := (2, 8), in_air := false, is_falling := false, jump_counter := 0,
          just_jumped := false, body_size := 2, fall_delay_counter := 0, grid_size := 10 }
        1 10
        [{ position := (3, 8), falling := false, carried := false, carrying_direction := none },
         { position := (4, 8), falling := false, carried := false, carrying_direction := none }]).2
      = [{ position := (3, 8), falling := false, carried := false, carrying_direction := none },
         { position := (4, 8), falling := false, carried := false, carrying_direction := none }]) :=
  claim_C6_push_atomicity _ 1 10 _ 0 (by decide) (by decide) (by decide)

/-! ### Claim C8 -/

/-- C8: when a horizontal move's first blocking match is a falling block and
both destination checks pass, the block and the player each move one cell; the
block's `carried` flag and `carrying_direction` are updated to
`true`/`sign(move)` exactly when the match is at the player's head row
(`position.2`), and are left untouched (`false`/`none` stay `false`/`none`)
when the match is at the player's body row (`position.2 + 1`). -/
theorem claim_C8_body_row_carry (p : Player) (move_by : Int) (grid_size : Nat)
    (blocks : List Block) (idx : Nat) (hidx : idx < blocks.length)
    (hfd : p.fall_delay_counter = 0)
    (hcan : p.can_move_in_direction move_by grid_size = true)
    (hfind : p.find_blocking_block (((p.position.1 : Int) + move_by).toNat) blocks = some idx)
    (hfall : (blocks.getD idx defBlock).falling = true)
    (hbcan : Player.can_block_move_in_direction (blocks.getD idx defBlock).position.1 move_by
      grid_size = true)
    (hnb : (blocks.any fun b =>
        decide (b.position = ((((blocks.getD idx defBlock).position.1 : Int) + move_by).toNat,
          (blocks.getD idx defBlock).position.2))) = false)
    (hnp : (blocks.enum.any fun ib =>
        decide (ib.1 ≠ idx) &&
          ((List.range p.body_size).any fun body_part =>
            !(body_part == 0 &&
                decide (ib.2.position = ((((p.position.1 : Int) + move_by).toNat, p.position.2)))) &&
            decide (ib.2.position =
              ((((p.position.1 : Int) + move_by).toNat, p.position.2 + body_part))))) = false) :
    (p.move_horizontal move_by grid_size blocks).1.position =
      (((p.position.1 : Int) + move_by).toNat, p.position.2) ∧
    ((p.move_horizontal move_by grid_size blocks).2.getD idx defBlock).position =
      ((((blocks.getD idx defBlock).position.1 : Int) + move_by).toNat,
        (blocks.getD idx defBlock).position.2) ∧
    ((blocks.getD idx defBlock).position.2 = p.position.2 + 1 →
      ((p.move_horizontal move_by grid_size blocks).2.getD idx defBlock).carried =
        (blocks.getD idx defBlock).carried ∧
      ((p.move_horizontal move_by grid_size blocks).2.getD idx defBlock).carrying_direction =
        (blocks.getD idx defBlock).carrying_direction) ∧
    ((blocks.getD idx defBlock).position.2 = p.position.2 →
      ((p.move_horizontal move_by grid_size blocks).2.getD idx defBlock).carried = true ∧
      ((p.move_horizontal move_by grid_size blocks).2.getD idx defBlock).carrying_direction =
        some (((((blocks.getD idx defBlock).position.1 : Int) + move_by).toNat -
          ((blocks.getD idx defBlock).position.1 : Int)).sign)) := by
  have hgetD : ∀ b' : Block, ((blocks.set idx b').getD idx defBlock) = b' := by
    intro b'
    simp [List.getD, List.getElem?_set_self, hidx]
  simp only [Player.move_horizontal, hfd, lt_irrefl, if_false, hcan, Bool.true_eq_false,
    hfind, Player.handle_block_collision, hbcan, hfall,
    Player.handle_falling_block_movement, hnb, hnp, and_self, if_true, if_false]
  refine ⟨?_, ?_, ?_, ?_⟩
  · rw [check_support_after_move_position]
  · rw [hgetD]
    by_cases hh : (blocks.getD idx defBlock).position.2 = p.position.2
    · rw [if_pos hh]
    · rw [if_neg hh]
  · intro hbody
    have hh : ¬ (blocks.getD idx defBlock).position.2 = p.position.2 := by omega
    rw [hgetD, if_neg hh]
    exact ⟨rfl, rfl⟩
  · intro hhead
    rw [hgetD, if_pos hhead]
    exact ⟨rfl, rfl⟩

/-- The player of the C8 witness scenario. -/
def pC8 : Player :=
  { position := (2, 8), in_air := false, is_falling := false, jump_counter := 0,
    just_jumped := false, body_size := 2, fall_delay_counter := 0, grid_size := 10 }

/-- The block list of the C8 witness scenario: a single falling block at the
player's body row. -/
def bsC8 : List Block :=
  [{ position := (3, 9), falling := true, carried := false, carrying_direction := none }]

/-- Witness for C8: moving right into a falling block at the body row moves
block and player but leaves `carried`/`carrying_direction` untouched. -/
theorem claim_C8_witness :
    (pC8.move_horizontal 1 10 bsC8).1.position = (3, 8) ∧
    ((pC8.move_horizontal 1 10 bsC8).2.getD 0 defBlock).position = (4, 9) ∧
    ((pC8.move_horizontal 1 10 bsC8).2.getD 0 defBlock).carried = false ∧
    ((pC8.move_horizontal 1 10 bsC8).2.getD 0 defBlock).carrying_direction = none := by
  have h := claim_C8_body_row_carry pC8 1 10 bsC8 0 (by decide) rfl (by decide) (by decide)
    rfl (by decide) (by decide) (by decide)
  exact ⟨h.1, h.2.1, (h.2.2.1 rfl).1, (h.2.2.1 rfl).2⟩

/-! ### Claim C9 -/

/-- C9: once `game_over` is set, `update` is a complete no-op (for either timer
outcome) and `process_input` with any action other than `Restart` is a complete
no-op, both reporting `GameOver`; `process_input Restart` is honored in every
state and equals `restart`, which resets the player, clears the blocks and
spawns exactly one fresh block, resets the spawn counter, score, move direction
and `game_over`, and preserves `grid_size`, `cell_size`, `block_fall_speed` and
`block_spawn_rate` (and the refresh rate). -/
theorem claim_C9_game_over_and_restart (g : GameState) (a : InputAction)
    (fired move_ready : Bool) :
    (g.game_over = true →
      (g.update fired).1 = g ∧ (g.update fired).2 = GameUpdateResult.GameOver) ∧
    (g.game_over = true → a ≠ InputAction.Restart →
      (g.process_input a move_ready).1 = g ∧
      (g.process_input a move_ready).2 = GameUpdateResult.GameOver) ∧
    (g.process_input InputAction.Restart move_ready =
      (g.restart, GameUpdateResult.Restart)) ∧
    g.restart.player = Player.new g.grid_size ∧
    g.restart.blocks = [spawn_random_block g.grid_size (g.rng.headD 0)] ∧
    g.restart.block_spawn_counter = 0 ∧
    g.restart.score = 0 ∧
    g.restart.game_over = false ∧
    g.restart.last_move_direction = none ∧
    g.restart.grid_size = g.grid_size ∧
    g.restart.cell_size = g.cell_size ∧
    g.restart.block_fall_speed = g.block_fall_speed ∧
    g.restart.block_spawn_rate = g.block_spawn_rate ∧
    g.restart.refresh_rate_milliseconds = g.refresh_rate_milliseconds := by
  refine ⟨?_, ?_, ?_, rfl, rfl, rfl, rfl, rfl, rfl, rfl, rfl, rfl, rfl, rfl⟩
  · intro h
    simp [GameState.update, h]
  · intro h hne
    simp [GameState.process_input, h, hne]
  · by_cases h : g.game_over <;> simp [GameState.process_input, h]

/-- The game-over state used by the C9 witness. -/
def gC9 : GameState :=
  { grid_size := 4, cell_size := 1, player := Player.new 4,
    refresh_rate_milliseconds := 100, blocks := [], block_fall_speed := 1,
    block_spawn_rate := 3, block_spawn_counter := 2, game_over := true, score := 7,
    last_move_direction := some 1, rng := [2, 3] }

/-- Witness for C9 at a concrete game-over state and the non-restart action
`Left`. -/
theorem claim_C9_witness :
    (gC9.update true).1 = gC9 ∧
    (gC9.process_input InputAction.Left true).1 = gC9 ∧
    (gC9.process_input InputAction.Restart true).1 = gC9.restart ∧
    gC9.restart.score = 0 ∧
    gC9.restart.game_over = false ∧
    gC9.restart.grid_size = gC9.grid_size := by
  have h := claim_C9_game_over_and_restart gC9 InputAction.Left true true
  exact ⟨(h.1 rfl).1, (h.2.1 rfl (by decide)).1, by rw [h.2.2.1], h.2.2.2.2.2.2.1,
    h.2.2.2.2.2.2.2.1, h.2.2.2.2.2.2.2.2.2.1⟩

/-! ### Claim C3: levitation-cascade machinery -/

theorem set_getElem_self_eq {α} (l : List α) (i : Nat) (h : i < l.length) :
    l.set i l[i] = l := by
  induction l generalizing i with
  | nil => rfl
  | cons a t ih =>
    cases i with
    | zero => rfl
    | succ j => simpa using ih j (by simpa using h)

theorem map_set_same {α β} (f : α → β) (l : List α) (i : Nat) (a : α) (h : i < l.length)
    (hf : f a = f l[i]) : (l.set i a).map f = l.map f := by
  rw [List.map_set, hf, ← List.getElem_map (f := f) (h := by simpa using h),
    set_getElem_self_eq]

theorem countP_set_eq {α} (p : α → Bool) (l : List α) (i : Nat) (a : α) (h : i < l.length) :
    (l.set i a).countP p + (if p l[i] then 1 else 0) = l.countP p + (if p a then 1 else 0) := by
  induction l generalizing i with
  | nil => simp at h
  | cons x t ih =>
    cases i with
    | zero => simp [List.countP_cons]; omega
    | succ j =>
      have := ih j (by simpa using h)
      simp only [List.set_cons_succ, List.countP_cons, List.getElem_cons_succ]
      omega

theorem countP_resting_set_flip (bs : List Block) (i : Nat) (h : i < bs.length)
    (h1 : bs[i].falling = false) :
    (bs.set i { bs[i] with falling := true }).countP (fun b => !b.falling) + 1 =
      bs.countP (fun b => !b.falling) := by
  have hset := countP_set_eq (fun b => !b.falling) bs i { bs[i] with falling := true } h
  rw [h1] at hset
  rw [if_pos (by decide : (!false) = true)] at hset
  rw [if_neg (by decide : ((!(true : Bool)) = true) -> False)] at hset
  omega

theorem levPassFrom_succ_lt (gs fuel : Nat) (bs : List Block) (i : Nat)
    (h : i < bs.length) :
    levPassFrom gs (fuel + 1) bs i =
      if bs[i].falling then levPassFrom gs fuel bs (i + 1)
      else if gs - 1 ≤ bs[i].position.2 then levPassFrom gs fuel bs (i + 1)
      else if hasSupportAt bs bs[i].position.1 bs[i].position.2 then
        levPassFrom gs fuel bs (i + 1)
      else
        ((levPassFrom gs fuel (bs.set i { bs[i] with falling := true }) (i + 1)).1, true) := by
  rw [levPassFrom, dif_pos h]
  rfl

theorem levPassFrom_succ_ge (gs fuel : Nat) (bs : List Block) (i : Nat)
    (h : ¬ i < bs.length) :
    levPassFrom gs (fuel + 1) bs i = (bs, false) := by
  rw [levPassFrom, dif_neg h]

theorem levPassFrom_map_position (gs fuel : Nat) (bs : List Block) (i : Nat) :
    ((levPassFrom gs fuel bs i).1).map (fun b => b.position) = bs.map (fun b => b.position) := by
  induction fuel generalizing bs i with
  | zero => rfl
  | succ fuel ih =>
    by_cases h : i < bs.length
    · rw [levPassFrom_succ_lt gs fuel bs i h]
      by_cases h1 : bs[i].falling = true
      · rw [if_pos h1]; exact ih bs (i + 1)
      · rw [if_neg h1]
        by_cases h2 : gs - 1 ≤ bs[i].position.2
        · rw [if_pos h2]; exact ih bs (i + 1)
        · rw [if_neg h2]
          by_cases h3 : hasSupportAt bs bs[i].position.1 bs[i].position.2 = true
          · rw [if_pos h3]; exact ih bs (i + 1)
          · rw [if_neg h3]
            exact (ih _ (i + 1)).trans (map_set_same _ bs i _ h rfl)
    · rw [levPassFrom_succ_ge gs fuel bs i h]

theorem levPassFrom_length (gs fuel : Nat) (bs : List Block) (i : Nat) :
    ((levPassFrom gs fuel bs i).1).length = bs.length := by
  have := congrArg List.length (levPassFrom_map_position gs fuel bs i)
  simpa using this

theorem levPassFrom_countP_le (gs fuel : Nat) (bs : List Block) (i : Nat) :
    ((levPassFrom gs fuel bs i).1).countP (fun b => !b.falling) ≤
      bs.countP (fun b => !b.falling) := by
  induction fuel generalizing bs i with
  | zero => exact Nat.le_refl _
  | succ fuel ih =>
    by_cases h : i < bs.length
    · rw [levPassFrom_succ_lt gs fuel bs i h]
      by_cases h1 : bs[i].falling = true
      · rw [if_pos h1]; exact ih bs (i + 1)
      · rw [if_neg h1]
        by_cases h2 : gs - 1 ≤ bs[i].position.2
        · rw [if_pos h2]; exact ih bs (i + 1)
        · rw [if_neg h2]
          by_cases h3 : hasSupportAt bs bs[i].position.1 bs[i].position.2 = true
          · rw [if_pos h3]; exact ih bs (i + 1)
          · rw [if_neg h3]
            rw [Bool.not_eq_true] at h1
            have hset := countP_resting_set_flip bs i h h1
            have hle := ih (bs.set i { bs[i] with falling := true }) (i + 1)
            have hpair : ((levPassFrom gs fuel
                (bs.set i { bs[i] with falling := true }) (i + 1)).1, true).1 =
                (levPassFrom gs fuel (bs.set i { bs[i] with falling := true }) (i + 1)).1 := rfl
            rw [hpair]
            omega
    · rw [levPassFrom_succ_ge gs fuel bs i h]

theorem levPassFrom_countP_lt (gs fuel : Nat) (bs : List Block) (i : Nat)
    (hsnd : (levPassFrom gs fuel bs i).2 = true) :
    ((levPassFrom gs fuel bs i).1).countP (fun b => !b.falling) <
      bs.countP (fun b => !b.falling) := by
  induction fuel generalizing bs i with
  | zero => simp [levPassFrom] at hsnd
  | succ fuel ih =>
    by_cases h : i < bs.length
    · rw [levPassFrom_succ_lt gs fuel bs i h] at hsnd ⊢
      by_cases h1 : bs[i].falling = true
      · rw [if_pos h1] at hsnd ⊢; exact ih bs (i + 1) hsnd
      · rw [if_neg h1] at hsnd ⊢
        by_cases h2 : gs - 1 ≤ bs[i].position.2
        · rw [if_pos h2] at hsnd ⊢; exact ih bs (i + 1) hsnd
        · rw [if_neg h2] at hsnd ⊢
          by_cases h3 : hasSupportAt bs bs[i].position.1 bs[i].position.2 = true
          · rw [if_pos h3] at hsnd ⊢; exact ih bs (i + 1) hsnd
          · rw [if_neg h3] at hsnd ⊢
            rw [Bool.not_eq_true] at h1
            have hset := countP_resting_set_flip bs i h h1
            have hle := levPassFrom_countP_le gs fuel
              (bs.set i { bs[i] with falling := true }) (i + 1)
            have hpair : ((levPassFrom gs fuel
                (bs.set i { bs[i] with falling := true }) (i + 1)).1, true).1 =
                (levPassFrom gs fuel (bs.set i { bs[i] with falling := true }) (i + 1)).1 := rfl
            rw [hpair]
            omega
    · rw [levPassFrom_succ_ge gs fuel bs i h] at hsnd
      cases hsnd

theorem levPassFrom_false (gs : Nat) (fuel : Nat) (bs : List Block) (i : Nat)
    (hfuel : bs.length ≤ fuel + i)
    (hsnd : (levPassFrom gs fuel bs i).2 = false) :
    (levPassFrom gs fuel bs i).1 = bs ∧
    ∀ j, i ≤ j → (hj : j < bs.length) → bs[j].falling = false →
      gs - 1 ≤ bs[j].position.2 ∨
      hasSupportAt bs bs[j].position.1 bs[j].position.2 = true := by
  induction fuel generalizing bs i with
  | zero =>
    refine ⟨rfl, ?_⟩
    intro j hij hj
    omega
  | succ fuel ih =>
    by_cases h : i < bs.length
    · rw [levPassFrom_succ_lt gs fuel bs i h] at hsnd ⊢
      by_cases h1 : bs[i].falling = true
      · rw [if_pos h1] at hsnd ⊢
        obtain ⟨e1, e2⟩ := ih bs (i + 1) (by omega) hsnd
        refine ⟨e1, ?_⟩
        intro j hij hj hrest
        rcases Nat.eq_or_lt_of_le hij with rfl | hlt
        · rw [hrest] at h1; cases h1
        · exact e2 j hlt hj hrest
      · rw [if_neg h1] at hsnd ⊢
        by_cases h2 : gs - 1 ≤ bs[i].position.2
        · rw [if_pos h2] at hsnd ⊢
          obtain ⟨e1, e2⟩ := ih bs (i + 1) (by omega) hsnd
          refine ⟨e1, ?_⟩
          intro j hij hj hrest
          rcases Nat.eq_or_lt_of_le hij with rfl | hlt
          · exact Or.inl h2
          · exact e2 j hlt hj hrest
        · rw [if_neg h2] at hsnd ⊢
          by_cases h3 : hasSupportAt bs bs[i].position.1 bs[i].position.2 = true
          · rw [if_pos h3] at hsnd ⊢
            obtain ⟨e1, e2⟩ := ih bs (i + 1) (by omega) hsnd
            refine ⟨e1, ?_⟩
            intro j hij hj hrest
            rcases Nat.eq_or_lt_of_le hij with rfl | hlt
            · exact Or.inr h3
            · exact e2 j hlt hj hrest
          · rw [if_neg h3] at hsnd
            cases hsnd
    · rw [levPassFrom_succ_ge gs fuel bs i h]
      exact ⟨rfl, fun j hij hj _ => by omega⟩

theorem levLoop_map_position (gs fuel : Nat) (bs : List Block) :
    (levLoop gs fuel bs).map (fun b => b.position) = bs.map (fun b => b.position) := by
  induction fuel generalizing bs with
  | zero => rfl
  | succ fuel ih =>
    rw [levLoop]
    split
    · exact (ih _).trans (levPassFrom_map_position gs bs.length bs 0)
    · exact levPassFrom_map_position gs bs.length bs 0

theorem levLoop_fixpoint (gs fuel : Nat) (bs : List Block)
    (h : bs.countP (fun b => !b.falling) < fuel) :
    (levPass gs (levLoop gs fuel bs)).2 = false := by
  induction fuel generalizing bs with
  | zero => omega
  | succ fuel ih =>
    rw [levLoop]
    split
    · rename_i hch
      have hch' : (levPassFrom gs bs.length bs 0).2 = true := hch
      have hlt := levPassFrom_countP_lt gs bs.length bs 0 hch'
      refine ih _ ?_
      show (levPassFrom gs bs.length bs 0).1.countP (fun b => !b.falling) < fuel
      omega
    · rename_i hch
      simp only [Bool.not_eq_true] at hch
      have hch' : (levPassFrom gs bs.length bs 0).2 = false := hch
      have h1 : (levPass gs bs).1 = bs :=
        (levPassFrom_false gs bs.length bs 0 (by omega) hch').1
      show (levPass gs (levPass gs bs).1).2 = false
      rw [h1]
      exact hch

theorem checkForLevitatingBlocks_map_position (gs : Nat) (bs : List Block) :
    (checkForLevitatingBlocks gs bs).map (fun b => b.position) =
      bs.map (fun b => b.position) :=
  levLoop_map_position gs _ bs

theorem checkForLevitatingBlocks_fixpoint (gs : Nat) (bs : List Block) :
    (levPass gs (checkForLevitatingBlocks gs bs)).2 = false :=
  levLoop_fixpoint gs _ bs (Nat.lt_succ_self _)

/-- C3: `check_for_levitating_blocks` converges (its recursion terminates: the
final pass over the result reports no change, and the explicit fuel used in
the embedding is proved sufficient by `levLoop_fixpoint`), and in the resulting
block list every resting block within the grid either sits on the bottom row
(`y = grid_size - 1`) or has a resting block directly beneath it at
`(x, y + 1)`. -/
theorem claim_C3_support_fixpoint (gs : Nat) (bs : List Block) (hgs : 1 ≤ gs)
    (hin : ∀ b ∈ bs, b.position.2 < gs) :
    (levPass gs (checkForLevitatingBlocks gs bs)).2 = false ∧
    ∀ b ∈ checkForLevitatingBlocks gs bs, b.falling = false →
      b.position.2 = gs - 1 ∨
      ∃ c ∈ checkForLevitatingBlocks gs bs, c.falling = false ∧
        c.position.1 = b.position.1 ∧ c.position.2 = b.position.2 + 1 := by
  refine ⟨checkForLevitatingBlocks_fixpoint gs bs, ?_⟩
  intro b hb hrest
  set R := checkForLevitatingBlocks gs bs with hR
  have hfix : (levPass gs R).2 = false := checkForLevitatingBlocks_fixpoint gs bs
  have hpost := (levPassFrom_false gs R.length R 0 (by omega) hfix).2
  obtain ⟨j, hj, hbj⟩ := List.mem_iff_getElem.1 hb
  have hyin : b.position.2 < gs := by
    have hmem : b.position ∈ R.map (fun b => b.position) :=
      List.mem_map.2 ⟨b, hb, rfl⟩
    rw [checkForLevitatingBlocks_map_position] at hmem
    obtain ⟨a, ha, hap⟩ := List.mem_map.1 hmem
    have := hin a ha
    rw [hap] at this
    exact this
  rcases hpost j (Nat.zero_le _) hj (by rw [hbj]; exact hrest) with hbot | hsup
  · left
    rw [hbj] at hbot
    omega
  · right
    rw [hbj] at hsup
    unfold hasSupportAt at hsup
    obtain ⟨c, hc, hcp⟩ := List.any_eq_true.1 hsup
    simp only [Bool.and_eq_true, Bool.not_eq_true', beq_iff_eq] at hcp
    exact ⟨c, hc, hcp.1.1, hcp.1.2, hcp.2⟩

/-- Witness for C3 at a concrete input: a 3×3 grid with an unsupported resting
block at `(0, 1)` (which the cascade flips to falling) and a resting block on
the bottom row. -/
theorem claim_C3_witness :
    (levPass 3 (checkForLevitatingBlocks 3
      [{ position := (0, 1), falling := false, carried := false, carrying_direction := none },
       { position := (2, 2), falling := false, carried := false, carrying_direction := none }])).2
      = false ∧
    ∀ b ∈ checkForLevitatingBlocks 3
      [{ position := (0, 1), falling := false, carried := false, carrying_direction := none },
       { position := (2, 2), falling := false, carried := false, carrying_direction := none }],
      b.falling = false →
      b.position.2 = 3 - 1 ∨
      ∃ c ∈ checkForLevitatingBlocks 3
        [{ position := (0, 1), falling := false, carried := false, carrying_direction := none },
         { position := (2, 2), falling := false, carried := false, carrying_direction := none }],
        c.falling = false ∧ c.position.1 = b.position.1 ∧ c.position.2 = b.position.2 + 1 :=
  claim_C3_support_fixpoint 3 _ (by decide) (by decide)

/-! ### Claims C4 and C5: row clearing -/

theorem range_reverse_succ (n : Nat) :
    (List.range (n + 1)).reverse = n :: (List.range n).reverse := by
  rw [List.range_succ, List.reverse_append]
  rfl

theorem checkRowsAux_finds (g : GameState) (r : Nat) :
    ∀ n, r < n →
    (∀ rr, r < rr → rr < n →
      g.blocks.countP (fun b => !b.falling && b.position.2 == rr) ≠ g.grid_size) →
    g.blocks.countP (fun b => !b.falling && b.position.2 == r) = g.grid_size →
    checkRowsAux g (List.range n).reverse =
      GameState.check_for_levitating_blocks
        { g with blocks := g.blocks.filter (fun b => b.position.2 != r)
                 score := g.score + 1 } := by
  intro n
  induction n with
  | zero => omega
  | succ n ih =>
    intro hrn hnot hfull
    rw [range_reverse_succ]
    show checkRowsAux g (n :: (List.range n).reverse) = _
    rcases Nat.lt_succ_iff_lt_or_eq.1 hrn with hlt | rfl
    · show (if g.blocks.countP (fun b => !b.falling && b.position.2 == n) = g.grid_size
          then _ else checkRowsAux g (List.range n).reverse) = _
      rw [if_neg (hnot n hlt (Nat.lt_succ_self n))]
      exact ih hlt (fun rr h1 h2 => hnot rr h1 (by omega)) hfull
    · show (if g.blocks.countP (fun b => !b.falling && b.position.2 == r) = g.grid_size
          then _ else _) = _
      rw [if_pos hfull]

/-- The state used for the C4 counterexample: a 2×2 grid whose bottom row
holds two resting blocks (so row 1 is the unique full row) and additionally a
falling block at `(0, 1)`. -/
def gC4 : GameState :=
  { grid_size := 2, cell_size := 1, player := Player.new 2,
    refresh_rate_milliseconds := 100,
    blocks := [{ position := (0, 1), falling := false, carried := false, carrying_direction := none },
               { position := (1, 1), falling := false, carried := false, carrying_direction := none },
               { position := (0, 1), falling := true, carried := false, carrying_direction := none }],
    block_fall_speed := 1, block_spawn_rate := 100, block_spawn_counter := 0,
    game_over := false, score := 0, last_move_direction := none, rng := [] }

/-- C4 counterexample: in `gC4` exactly one row (row 1) contains `grid_size`
resting blocks, yet `check_full_rows` removes three blocks, not `grid_size =
2`: the falling block sitting in the full row is removed as well. -/
theorem claim_C4_counterexample :
    gC4.blocks.countP (fun b => !b.falling && b.position.2 == 1) = gC4.grid_size ∧
    gC4.blocks.countP (fun b => !b.falling && b.position.2 == 0) ≠ gC4.grid_size ∧
    gC4.blocks.length - (gC4.check_full_rows).blocks.length ≠ gC4.grid_size := by
  decide

/-- C4 (amended): if exactly one row `r` contains `grid_size` resting blocks
and, in addition, every block lying in row `r` is resting, then one call of
`check_full_rows` increments the score by exactly 1 and removes exactly the
blocks whose `position.2 = r` — `grid_size` of them — leaving every other
block's position unchanged (in order); without the extra proviso the call
removes every block of row `r` including falling ones, which can exceed
`grid_size`. -/
theorem claim_C4_amended (g : GameState) (r : Nat)
    (hr : r < g.grid_size)
    (hfull : g.blocks.countP (fun b => !b.falling && b.position.2 == r) = g.grid_size)
    (huniq : ∀ rr, rr < g.grid_size → rr ≠ r →
      g.blocks.countP (fun b => !b.falling && b.position.2 == rr) ≠ g.grid_size)
    (hnofall : ∀ b ∈ g.blocks, b.position.2 = r → b.falling = false) :
    (g.check_full_rows).score = g.score + 1 ∧
    (g.check_full_rows).blocks.map (fun b => b.position) =
      (g.blocks.filter (fun b => b.position.2 != r)).map (fun b => b.position) ∧
    (g.blocks.filter (fun b => b.position.2 == r)).length = g.grid_size := by
  have hscan := checkRowsAux_finds g r g.grid_size hr
    (fun rr h1 h2 => huniq rr h2 (by omega)) hfull
  have hres : g.check_full_rows =
      GameState.check_for_levitating_blocks
        { g with blocks := g.blocks.filter (fun b => b.position.2 != r)
                 score := g.score + 1 } := hscan
  refine ⟨?_, ?_, ?_⟩
  · rw [hres]; rfl
  · rw [hres]
    exact checkForLevitatingBlocks_map_position _ _
  · rw [← List.countP_eq_length_filter]
    rw [← hfull]
    apply List.countP_congr
    intro b hb
    by_cases hy : b.position.2 = r
    · simp [hy, hnofall b hb hy]
    · simp [hy]

/-- The state of the spec's concrete C4 scenario: 4×4 grid, bottom row fully
occupied by 4 resting blocks, plus resting blocks at `(0, 2)` and `(2, 2)`. -/
def gC4w : GameState :=
  { grid_size := 4, cell_size := 1, player := Player.new 4,
    refresh_rate_milliseconds := 100,
    blocks := [{ position := (0, 3), falling := false, carried := false, carrying_direction := none },
               { position := (1, 3), falling := false, carried := false, carrying_direction := none },
               { position := (2, 3), falling := false, carried := false, carrying_direction := none },
               { position := (3, 3), falling := false, carried := false, carrying_direction := none },
               { position := (0, 2), falling := false, carried := false, carrying_direction := none },
               { position := (2, 2), falling := false, carried := false, carrying_direction := none }],
    block_fall_speed := 1, block_spawn_rate := 100, block_spawn_counter := 0,
    game_over := false, score := 0, last_move_direction := none, rng := [] }

/-- Witness for C4 (amended) at the spec's concrete scenario. -/
theorem claim_C4_witness :
    (gC4w.check_full_rows).score = gC4w.score + 1 ∧
    (gC4w.check_full_rows).blocks.map (fun b => b.position) =
      (gC4w.blocks.filter (fun b => b.position.2 != 3)).map (fun b => b.position) ∧
    (gC4w.blocks.filter (fun b => b.position.2 == 3)).length = gC4w.grid_size :=
  claim_C4_amended gC4w 3 (by decide) (by decide) (by decide) (by decide)

/-- The state used for C5: a 2×2 grid with both rows full of resting blocks. -/
def gC5 : GameState :=
  { grid_size := 2, cell_size := 1, player := Player.new 2,
    refresh_rate_milliseconds := 100,
    blocks := [{ position := (0, 0), falling := false, carried := false, carrying_direction := none },
               { position := (1, 0), falling := false, carried := false, carrying_direction := none },
               { position := (0, 1), falling := false, carried := false, carrying_direction := none },
               { position := (1, 1), falling := false, carried := false, carrying_direction := none }],
    block_fall_speed := 1, block_spawn_rate := 100, block_spawn_counter := 0,
    game_over := false, score := 0, last_move_direction := none, rng := [] }

/-- C5 counterexample: in `gC5` rows 0 and 1 are both full; one call of
`check_full_rows` clears the bottom row (row 1), but the levitation cascade
then flips every row-0 block to falling, so row 0 no longer contains
`grid_size` *resting* blocks at return — refuting the claim that the other row
"still counts as full". -/
theorem claim_C5_counterexample :
    gC5.blocks.countP (fun b => !b.falling && b.position.2 == 0) = gC5.grid_size ∧
    gC5.blocks.countP (fun b => !b.falling && b.position.2 == 1) = gC5.grid_size ∧
    (gC5.check_full_rows).blocks.countP (fun b => !b.falling && b.position.2 == 0) ≠
      gC5.grid_size := by
  decide

/-- C5 (amended): for every state in which two distinct rows `r1 < r2` each
contain `grid_size` resting blocks and no row below `r2` (larger index) is
full, a single call of `check_full_rows` clears exactly the lowest full row
`r2` (the first found scanning from the bottom row upward), increments the
score by exactly 1, and does not remove any block of row `r1` — the surviving
blocks keep their positions in order, and in particular the multiset of
positions in row `r1` is unchanged — but the cascade may flip row `r1`'s
blocks to falling, so row `r1` need not still count as full; it is cleared by
a later call only once it is full of resting blocks again. -/
theorem claim_C5_amended (g : GameState) (r1 r2 : Nat)
    (h12 : r1 < r2) (hr2 : r2 < g.grid_size)
    (hfull1 : g.blocks.countP (fun b => !b.falling && b.position.2 == r1) = g.grid_size)
    (hfull2 : g.blocks.countP (fun b => !b.falling && b.position.2 == r2) = g.grid_size)
    (hbelow : ∀ rr, r2 < rr → rr < g.grid_size →
      g.blocks.countP (fun b => !b.falling && b.position.2 == rr) ≠ g.grid_size) :
    (g.check_full_rows).score = g.score + 1 ∧
    (g.check_full_rows).blocks.map (fun b => b.position) =
      (g.blocks.filter (fun b => b.position.2 != r2)).map (fun b => b.position) ∧
    ((g.check_full_rows).blocks.map (fun b => b.position)).countP (fun q => q.2 == r1) =
      (g.blocks.map (fun b => b.position)).countP (fun q => q.2 == r1) := by
  have hscan := checkRowsAux_finds g r2 g.grid_size hr2 hbelow hfull2
  have hres : g.check_full_rows =
      GameState.check_for_levitating_blocks
        { g with blocks := g.blocks.filter (fun b => b.position.2 != r2)
                 score := g.score + 1 } := hscan
  have hmap : (g.check_full_rows).blocks.map (fun b => b.position) =
      (g.blocks.filter (fun b => b.position.2 != r2)).map (fun b => b.position) := by
    rw [hres]
    exact checkForLevitatingBlocks_map_position _ _
  refine ⟨by rw [hres]; rfl, hmap, ?_⟩
  rw [hmap]
  induction g.blocks with
  | nil => rfl
  | cons b t iht =>
    by_cases hy : b.position.2 = r2
    · have h1 : (b.position.2 != r2) = false := by simp [hy]
      have h2 : (b.position.2 == r1) = false := by simp [hy]; omega
      simp only [List.filter_cons, h1, List.map_cons, List.countP_cons, h2, if_false]
      simpa using iht
    · have h1 : (b.position.2 != r2) = true := by simp [hy]
      simp only [List.filter_cons, h1, List.map_cons, List.countP_cons, if_true]
      rw [iht]

/-- Witness for C5 (amended) at the concrete both-rows-full state `gC5`. -/
theorem claim_C5_witness :
    (gC5.check_full_rows).score = gC5.score + 1 ∧
    (gC5.check_full_rows).blocks.map (fun b => b.position) =
      (gC5.blocks.filter (fun b => b.position.2 != 1)).map (fun b => b.position) ∧
    ((gC5.check_full_rows).blocks.map (fun b => b.position)).countP (fun q => q.2 == 0) =
      (gC5.blocks.map (fun b => b.position)).countP (fun q => q.2 == 0) :=
  claim_C5_amended gC5 0 1 (by decide) (by decide) (by decide) (by decide)
    (by intro rr h1 h2; rw [show gC5.grid_size = 2 from rfl] at h2; omega)

/-! ### Claim C7: pushable-set characterization -/

/-- The `y` coordinate of the block at index `i` (defaulting out of range). -/
def yOf (blocks : List Block) (i : Nat) : Nat := (blocks.getD i defBlock).position.2

theorem getD_eq_getElem_of_lt (l : List Block) (i : Nat) (h : i < l.length) :
    l.getD i defBlock = l[i] := by
  rw [List.getD_eq_getElem?_getD, List.getElem?_eq_getElem h]
  rfl

theorem contains_iff_mem_nat (l : List Nat) (a : Nat) : l.contains a = true ↔ a ∈ l := by
  rw [show l.contains a = l.elem a from rfl]
  exact List.elem_iff

theorem insertByY_perm (x : Nat × Nat) (l : List (Nat × Nat)) :
    List.Perm (insertByY x l) (x :: l) := by
  induction l with
  | nil => exact List.Perm.refl _
  | cons b t ih =>
    unfold insertByY
    split
    · exact List.Perm.refl _
    · exact (ih.cons b).trans (List.Perm.swap x b t)

theorem foldl_insertByY_perm (l : List (Nat × Nat)) :
    ∀ acc, List.Perm (l.foldl (fun a x => insertByY x a) acc) (acc ++ l) := by
  induction l with
  | nil => intro acc; simp
  | cons x t ih =>
    intro acc
    exact (ih (insertByY x acc)).trans
      (((insertByY_perm x acc).append_right t).trans List.perm_middle.symm)

theorem sortByY_perm (l : List (Nat × Nat)) : List.Perm (sortByY l) l := by
  simpa using foldl_insertByY_perm l []

theorem map_fst_filterMap_sublist {β γ : Type} (f : (Nat × β) → Option (Nat × γ))
    (hf : ∀ a b, f a = some b → b.1 = a.1) (l : List (Nat × β)) :
    ((l.filterMap f).map Prod.fst).Sublist (l.map Prod.fst) := by
  induction l with
  | nil => simp
  | cons a t ih =>
    rw [List.filterMap_cons]
    cases hfa : f a with
    | none => simpa using ih.cons a.1
    | some b =>
      simp only [List.map_cons]
      rw [hf a b hfa]
      exact ih.cons₂ a.1

theorem mem_columnBlocks (block_x : Nat) (blocks : List Block) (i y : Nat) :
    (i, y) ∈ columnBlocks block_x blocks ↔
      ∃ _ : i < blocks.length, blocks[i].position.1 = block_x ∧ blocks[i].falling = false ∧
        blocks[i].position.2 = y := by
  unfold columnBlocks
  rw [(sortByY_perm _).mem_iff, List.mem_filterMap]
  constructor
  · rintro ⟨⟨j, b⟩, hmem, hf⟩
    by_cases hc : b.position.1 = block_x ∧ b.falling = false
    · rw [if_pos hc] at hf
      obtain ⟨h1, h2⟩ := Prod.mk.injEq .. ▸ (Option.some.inj hf)
      rw [List.mk_mem_enum_iff_getElem?] at hmem
      have hj : j < blocks.length := (List.getElem?_eq_some_iff.1 hmem).1
      have hb : blocks[j] = b := by
        have := List.getElem?_eq_getElem hj
        rw [hmem] at this
        exact (Option.some.inj this).symm
      subst h1
      exact ⟨hj, by rw [hb]; exact hc.1, by rw [hb]; exact hc.2, by rw [hb]; exact h2⟩
    · rw [if_neg hc] at hf
      cases hf
  · rintro ⟨h, h1, h2, h3⟩
    refine ⟨(i, blocks[i]), ?_, ?_⟩
    · rw [List.mk_mem_enum_iff_getElem?]
      exact List.getElem?_eq_getElem h
    · rw [if_pos ⟨h1, h2⟩, h3]

theorem columnBlocks_map_fst_nodup (block_x : Nat) (blocks : List Block) :
    ((columnBlocks block_x blocks).map Prod.fst).Nodup := by
  have hperm : List.Perm ((columnBlocks block_x blocks).map Prod.fst)
      ((blocks.enum.filterMap fun ib =>
        if ib.2.position.1 = block_x ∧ ib.2.falling = false then some (ib.1, ib.2.position.2)
        else none).map Prod.fst) := (sortByY_perm _).map _
  rw [hperm.nodup_iff]
  have hsub := map_fst_filterMap_sublist
    (fun ib => if ib.2.position.1 = block_x ∧ ib.2.falling = false
      then some (ib.1, ib.2.position.2) else none)
    (by
      intro a b hab
      dsimp only at hab
      by_cases hc : a.2.position.1 = block_x ∧ a.2.falling = false
      · rw [if_pos hc] at hab
        rw [← Option.some.inj hab]
      · rw [if_neg hc] at hab
        cases hab)
    blocks.enum
  rw [List.enum_map_fst] at hsub
  exact hsub.nodup (List.nodup_range _)

/-- The least fixpoint described by (the amended) C7: an index is pushable iff
it is a resting block of the pushed column whose `y` lies in the player's body
range (seed), or — closure upward under direct support — a resting block of the
column with `y ≤ player_bottom` and `y > 0` resting directly on a block whose
index is already pushable.  The `y > 0` proviso is the amendment: the source
loop requires `y > 0`, so a block on the top row is never added by the closure
step. -/
inductive PushableIdx (blocks : List Block) (block_x ptop pbot : Nat) : Nat → Prop where
  | seed : ∀ i, i < blocks.length →
      (blocks.getD i defBlock).position.1 = block_x →
      (blocks.getD i defBlock).falling = false →
      ptop ≤ (blocks.getD i defBlock).position.2 →
      (blocks.getD i defBlock).position.2 ≤ pbot →
      PushableIdx blocks block_x ptop pbot i
  | step : ∀ i j, i < blocks.length →
      (blocks.getD i defBlock).position.1 = block_x →
      (blocks.getD i defBlock).falling = false →
      (blocks.getD i defBlock).position.2 ≤ pbot →
      0 < (blocks.getD i defBlock).position.2 →
      PushableIdx blocks block_x ptop pbot j →
      (blocks.getD j defBlock).position.2 = (blocks.getD i defBlock).position.2 + 1 →
      PushableIdx blocks block_x ptop pbot i

theorem growStep_flag_mono (pbot : Nat) (st : List Nat × List Nat × Bool) (ib : Nat × Nat)
    (h : st.2.2 = true) : (growStep pbot st ib).2.2 = true := by
  unfold growStep
  split_ifs <;> simp [h]

theorem growFold_flag_mono (pbot : Nat) (cb : List (Nat × Nat)) :
    ∀ st, st.2.2 = true → (cb.foldl (growStep pbot) st).2.2 = true := by
  induction cb with
  | nil => intro st h; exact h
  | cons ib t ih => intro st h; exact ih _ (growStep_flag_mono pbot st ib h)

theorem growFold_false (pbot : Nat) (cb : List (Nat × Nat)) :
    ∀ st, (cb.foldl (growStep pbot) st).2.2 = false →
      cb.foldl (growStep pbot) st = st ∧
      ∀ ib ∈ cb, st.1.contains ib.1 = false → ib.2 ≤ pbot → 0 < ib.2 →
        st.2.1.contains (ib.2 + 1) = false := by
  induction cb with
  | nil => intro st h; exact ⟨rfl, by simp⟩
  | cons ib t ih =>
    intro st h
    rw [List.foldl_cons] at h
    have hstep : growStep pbot st ib = st := by
      by_cases hc1 : st.1.contains ib.1 = true
      · unfold growStep; rw [if_pos hc1]
      · by_cases hc2 : pbot < ib.2
        · unfold growStep; rw [if_neg hc1, if_pos hc2]
        · by_cases hc3 : 0 < ib.2 ∧ st.2.1.contains (ib.2 + 1) = true
          · exfalso
            have : (growStep pbot st ib).2.2 = true := by
              unfold growStep
              rw [if_neg hc1, if_neg hc2, if_pos hc3]
            have := growFold_flag_mono pbot t _ this
            rw [this] at h
            cases h
          · unfold growStep; rw [if_neg hc1, if_neg hc2, if_neg hc3]
    rw [hstep] at h
    obtain ⟨e1, e2⟩ := ih st h
    refine ⟨by rw [List.foldl_cons, hstep]; exact e1, ?_⟩
    intro jb hjb hcont hle hpos
    rcases List.mem_cons.1 hjb with rfl | hjb
    · by_contra hky
      rw [Bool.not_eq_false] at hky
      have : (growStep pbot st jb).2.2 = true := by
        unfold growStep
        rw [if_neg (by rw [hcont]; exact Bool.false_ne_true), if_neg (Nat.not_lt.2 hle),
          if_pos ⟨hpos, hky⟩]
      have hmono := growFold_flag_mono pbot t (growStep pbot st jb) this
      rw [hstep] at hmono
      rw [hmono] at h
      cases h
    · exact e2 jb hjb hcont hle hpos

theorem growFold_sound (blocks : List Block) (block_x ptop pbot : Nat)
    (cb : List (Nat × Nat)) :
    (∀ ib ∈ cb, ib.1 < blocks.length ∧
      (blocks.getD ib.1 defBlock).position.1 = block_x ∧
      (blocks.getD ib.1 defBlock).falling = false ∧
      (blocks.getD ib.1 defBlock).position.2 = ib.2) →
    ∀ st : List Nat × List Nat × Bool,
      (∀ i ∈ st.1, PushableIdx blocks block_x ptop pbot i) →
      st.2.1 = st.1.map (yOf blocks) →
      (∀ i ∈ (cb.foldl (growStep pbot) st).1, PushableIdx blocks block_x ptop pbot i) ∧
      (cb.foldl (growStep pbot) st).2.1 = (cb.foldl (growStep pbot) st).1.map (yOf blocks) := by
  induction cb with
  | nil => intro _ st h1 h2; exact ⟨h1, h2⟩
  | cons ib t ih =>
    intro Hcb st h1 h2
    rw [List.foldl_cons]
    have Hib := Hcb ib (List.mem_cons_self ib t)
    have Ht : ∀ jb ∈ t, jb.1 < blocks.length ∧
        (blocks.getD jb.1 defBlock).position.1 = block_x ∧
        (blocks.getD jb.1 defBlock).falling = false ∧
        (blocks.getD jb.1 defBlock).position.2 = jb.2 :=
      fun jb hjb => Hcb jb (List.mem_cons_of_mem ib hjb)
    by_cases hc1 : st.1.contains ib.1 = true
    · rw [show growStep pbot st ib = st from by unfold growStep; rw [if_pos hc1]]
      exact ih Ht st h1 h2
    · by_cases hc2 : pbot < ib.2
      · rw [show growStep pbot st ib = st from by unfold growStep; rw [if_neg hc1, if_pos hc2]]
        exact ih Ht st h1 h2
      · by_cases hc3 : 0 < ib.2 ∧ st.2.1.contains (ib.2 + 1) = true
        · rw [show growStep pbot st ib = (st.1 ++ [ib.1], st.2.1 ++ [ib.2], true) from by
            unfold growStep; rw [if_neg hc1, if_neg hc2, if_pos hc3]]
          apply ih Ht
          · intro j hj
            rcases List.mem_append.1 hj with hj | hj
            · exact h1 j hj
            · rw [List.mem_singleton.1 hj]
              have hky := hc3.2
              rw [h2] at hky
              obtain ⟨j', hj', hyj'⟩ := List.mem_map.1 ((contains_iff_mem_nat _ _).1 hky)
              exact PushableIdx.step ib.1 j' Hib.1 Hib.2.1 Hib.2.2.1
                (by rw [Hib.2.2.2]; exact Nat.not_lt.1 hc2)
                (by rw [Hib.2.2.2]; exact hc3.1)
                (h1 j' hj')
                (by rw [Hib.2.2.2]; exact hyj')
          · show st.2.1 ++ [ib.2] = (st.1 ++ [ib.1]).map (yOf blocks)
            rw [List.map_append, h2, List.map_singleton]
            have : yOf blocks ib.1 = ib.2 := Hib.2.2.2
            rw [this]
        · rw [show growStep pbot st ib = st from by
            unfold growStep; rw [if_neg hc1, if_neg hc2, if_neg hc3]]
          exact ih Ht st h1 h2

theorem growFold_incr (pbot : Nat) (U : List Nat) :
    ∀ cb : List (Nat × Nat), (∀ ib ∈ cb, ib.1 ∈ U) →
    ∀ st : List Nat × List Nat × Bool,
      (st.1.length ≤ (cb.foldl (growStep pbot) st).1.length) ∧
      (st.2.2 = false → (cb.foldl (growStep pbot) st).2.2 = true →
        st.1.length < (cb.foldl (growStep pbot) st).1.length) ∧
      (st.1.Nodup → (cb.foldl (growStep pbot) st).1.Nodup) ∧
      ((∀ i ∈ st.1, i ∈ U) → ∀ i ∈ (cb.foldl (growStep pbot) st).1, i ∈ U) ∧
      (∀ i ∈ st.1, i ∈ (cb.foldl (growStep pbot) st).1) := by
  intro cb
  induction cb with
  | nil =>
    intro _ st
    refine ⟨Nat.le_refl _, ?_, fun h => h, fun h => h, fun i hi => hi⟩
    intro h1 h2
    rw [List.foldl_nil] at h2
    rw [h1] at h2
    cases h2
  | cons ib t ih =>
    intro Hcb st
    rw [List.foldl_cons]
    have HibU := Hcb ib (List.mem_cons_self ib t)
    have Ht : ∀ jb ∈ t, jb.1 ∈ U := fun jb hjb => Hcb jb (List.mem_cons_of_mem ib hjb)
    by_cases hc1 : st.1.contains ib.1 = true
    · rw [show growStep pbot st ib = st from by unfold growStep; rw [if_pos hc1]]
      exact ih Ht st
    · by_cases hc2 : pbot < ib.2
      · rw [show growStep pbot st ib = st from by unfold growStep; rw [if_neg hc1, if_pos hc2]]
        exact ih Ht st
      · by_cases hc3 : 0 < ib.2 ∧ st.2.1.contains (ib.2 + 1) = true
        · rw [show growStep pbot st ib = (st.1 ++ [ib.1], st.2.1 ++ [ib.2], true) from by
            unfold growStep; rw [if_neg hc1, if_neg hc2, if_pos hc3]]
          obtain ⟨k1, _, k3, k4, k5⟩ := ih Ht (st.1 ++ [ib.1], st.2.1 ++ [ib.2], true)
          have hlen : (st.1 ++ [ib.1]).length = st.1.length + 1 := by
            rw [List.length_append, List.length_singleton]
          have k1' : st.1.length + 1 ≤
              (List.foldl (growStep pbot) (st.1 ++ [ib.1], st.2.1 ++ [ib.2], true) t).1.length := by
            have h' : (st.1 ++ [ib.1]).length ≤
                (List.foldl (growStep pbot) (st.1 ++ [ib.1], st.2.1 ++ [ib.2], true) t).1.length :=
              k1
            rw [hlen] at h'
            exact h'
          refine ⟨?_, ?_, ?_, ?_, ?_⟩
          · omega
          · intro _ _
            omega
          · intro hnd
            apply k3
            have hnotmem : ib.1 ∉ st.1 := by
              intro hmem
              rw [(contains_iff_mem_nat _ _).2 hmem] at hc1
              exact hc1 rfl
            exact (List.perm_append_singleton ib.1 st.1).nodup_iff.2 (hnd.cons hnotmem)
          · intro hU
            apply k4
            intro i hi
            rcases List.mem_append.1 hi with hi | hi
            · exact hU i hi
            · rw [List.mem_singleton.1 hi]; exact HibU
          · intro i hi
            exact k5 i (List.mem_append_left _ hi)
        · rw [show growStep pbot st ib = st from by
            unfold growStep; rw [if_neg hc1, if_neg hc2, if_neg hc3]]
          exact ih Ht st

theorem findPushableLoop_succ (cb : List (Nat × Nat)) (pbot fuel : Nat) (idxs ys : List Nat) :
    findPushableLoop cb pbot (fuel + 1) idxs ys =
      if (growPassOnce cb pbot idxs ys).2.2 then
        findPushableLoop cb pbot fuel (growPassOnce cb pbot idxs ys).1
          (growPassOnce cb pbot idxs ys).2.1
      else (growPassOnce cb pbot idxs ys).1 := rfl

theorem findPushableLoop_spec (blocks : List Block) (block_x ptop pbot : Nat)
    (cb : List (Nat × Nat))
    (Hcb : ∀ ib ∈ cb, ib.1 < blocks.length ∧
      (blocks.getD ib.1 defBlock).position.1 = block_x ∧
      (blocks.getD ib.1 defBlock).falling = false ∧
      (blocks.getD ib.1 defBlock).position.2 = ib.2) :
    ∀ fuel idxs ys,
      idxs.Nodup →
      (∀ i ∈ idxs, i ∈ cb.map Prod.fst) →
      (∀ i ∈ idxs, PushableIdx blocks block_x ptop pbot i) →
      ys = idxs.map (yOf blocks) →
      cb.length + 1 ≤ fuel + idxs.length →
      (∀ i ∈ findPushableLoop cb pbot fuel idxs ys,
        PushableIdx blocks block_x ptop pbot i) ∧
      (∀ i ∈ idxs, i ∈ findPushableLoop cb pbot fuel idxs ys) ∧
      (∀ ib ∈ cb, (findPushableLoop cb pbot fuel idxs ys).contains ib.1 = false →
        ib.2 ≤ pbot → 0 < ib.2 →
        ((findPushableLoop cb pbot fuel idxs ys).map (yOf blocks)).contains (ib.2 + 1)
          = false) := by
  intro fuel
  induction fuel with
  | zero =>
    intro idxs ys hnd hsub _ _ hbound
    exfalso
    have hle : idxs.length ≤ (cb.map Prod.fst).length := (hnd.subperm hsub).length_le
    rw [List.length_map] at hle
    omega
  | succ fuel ih =>
    intro idxs ys hnd hsub hP hys hbound
    rw [findPushableLoop_succ]
    by_cases hflag : (growPassOnce cb pbot idxs ys).2.2 = true
    · rw [if_pos hflag]
      obtain ⟨k1, k2, k3, k4, k5⟩ := growFold_incr pbot (cb.map Prod.fst) cb
        (fun ib hib => List.mem_map_of_mem Prod.fst hib) (idxs, ys, false)
      obtain ⟨s1, s2⟩ := growFold_sound blocks block_x ptop pbot cb Hcb (idxs, ys, false) hP hys
      have hlt : idxs.length < (growPassOnce cb pbot idxs ys).1.length := k2 rfl hflag
      obtain ⟨r1, r2, r3⟩ := ih (growPassOnce cb pbot idxs ys).1
        (growPassOnce cb pbot idxs ys).2.1 (k3 hnd) (k4 hsub) s1 s2 (by omega)
      exact ⟨r1, fun i hi => r2 i (k5 i hi), r3⟩
    · rw [if_neg hflag]
      rw [Bool.not_eq_true] at hflag
      obtain ⟨e1, e2⟩ := growFold_false pbot cb (idxs, ys, false) hflag
      have hr1 : (growPassOnce cb pbot idxs ys).1 = idxs := by
        show (cb.foldl (growStep pbot) (idxs, ys, false)).1 = idxs
        rw [e1]
      rw [hr1]
      refine ⟨hP, fun i hi => hi, ?_⟩
      intro ib hib hcont hle hpos
      have hclose := e2 ib hib hcont hle hpos
      rw [hys] at hclose
      exact hclose

/-- The seed list of `find_pushable_blocks`: the `column_blocks` entries whose
`y` lies within the player's body range. -/
def seedsOf (p : Player) (block_x : Nat) (blocks : List Block) : List (Nat × Nat) :=
  (columnBlocks block_x blocks).filter fun ib =>
    decide (p.position.2 ≤ ib.2 ∧ ib.2 ≤ p.position.2 + p.body_size - 1)

theorem find_pushable_blocks_eq (p : Player) (block_x : Nat) (blocks : List Block) :
    p.find_pushable_blocks block_x blocks =
      if ((seedsOf p block_x blocks).map (fun ib => ib.1)).isEmpty then
        (seedsOf p block_x blocks).map (fun ib => ib.1)
      else
        findPushableLoop (columnBlocks block_x blocks) (p.position.2 + p.body_size - 1)
          ((columnBlocks block_x blocks).length + 1)
          ((seedsOf p block_x blocks).map (fun ib => ib.1))
          ((seedsOf p block_x blocks).map (fun ib => ib.2)) := rfl

theorem columnBlocks_entries (block_x : Nat) (blocks : List Block) :
    ∀ ib ∈ columnBlocks block_x blocks, ib.1 < blocks.length ∧
      (blocks.getD ib.1 defBlock).position.1 = block_x ∧
      (blocks.getD ib.1 defBlock).falling = false ∧
      (blocks.getD ib.1 defBlock).position.2 = ib.2 := by
  intro ib hib
  obtain ⟨h, h1, h2, h3⟩ := (mem_columnBlocks block_x blocks ib.1 ib.2).1 hib
  rw [getD_eq_getElem_of_lt blocks ib.1 h]
  exact ⟨h, h1, h2, h3⟩

theorem mem_columnBlocks_of_getD (block_x : Nat) (blocks : List Block) (j : Nat)
    (hj : j < blocks.length)
    (h1 : (blocks.getD j defBlock).position.1 = block_x)
    (h2 : (blocks.getD j defBlock).falling = false) :
    (j, (blocks.getD j defBlock).position.2) ∈ columnBlocks block_x blocks := by
  rw [getD_eq_getElem_of_lt blocks j hj] at h1 h2 ⊢
  exact (mem_columnBlocks block_x blocks j _).2 ⟨hj, h1, h2, rfl⟩

/-- C7 (amended): the pushable set computed by `find_pushable_blocks` is
exactly the least set containing every resting block of the pushed column
whose `y` lies within the player's body rows, closed upward under direct
support restricted to `y > 0`: a resting block of the column at
`(block_x, y)` with `y ≤ player_bottom` and `y > 0` is in the set whenever a
block already in the set occupies `(block_x, y + 1)`.  The restriction to
`y > 0` is the amendment — a block on the top row `y = 0` is never added by
the closure step, contrary to the original claim. -/
theorem claim_C7_amended (p : Player) (block_x : Nat) (blocks : List Block) (i : Nat) :
    i ∈ p.find_pushable_blocks block_x blocks ↔
      PushableIdx blocks block_x p.position.2 (p.position.2 + p.body_size - 1) i := by
  have Hcb := columnBlocks_entries block_x blocks
  have hseedmem : ∀ j ∈ (seedsOf p block_x blocks).map (fun ib => ib.1),
      PushableIdx blocks block_x p.position.2 (p.position.2 + p.body_size - 1) j := by
    intro j hj
    obtain ⟨ib, hib, hfst⟩ := List.mem_map.1 hj
    obtain ⟨hmem, hrange⟩ := List.mem_filter.1 hib
    rw [decide_eq_true_iff] at hrange
    obtain ⟨hlen, hcol, hrest, hy⟩ := Hcb ib hmem
    rw [← hfst]
    exact PushableIdx.seed ib.1 hlen hcol hrest (by rw [hy]; exact hrange.1)
      (by rw [hy]; exact hrange.2)
  have hseednodup : ((seedsOf p block_x blocks).map (fun ib => ib.1)).Nodup := by
    have hsub : ((seedsOf p block_x blocks).map (fun ib => ib.1)).Sublist
        ((columnBlocks block_x blocks).map (fun ib => ib.1)) :=
      (List.filter_sublist _).map _
    exact hsub.nodup (columnBlocks_map_fst_nodup block_x blocks)
  have hseedsub : ∀ j ∈ (seedsOf p block_x blocks).map (fun ib => ib.1),
      j ∈ (columnBlocks block_x blocks).map Prod.fst := by
    intro j hj
    obtain ⟨ib, hib, hfst⟩ := List.mem_map.1 hj
    exact hfst ▸ List.mem_map_of_mem Prod.fst ((List.filter_sublist _).subset hib)
  have hseedys : (seedsOf p block_x blocks).map (fun ib => ib.2) =
      ((seedsOf p block_x blocks).map (fun ib => ib.1)).map (yOf blocks) := by
    rw [List.map_map]
    apply List.map_congr_left
    intro ib hib
    exact ((Hcb ib ((List.filter_sublist _).subset hib)).2.2.2).symm
  by_cases hemp : ((seedsOf p block_x blocks).map (fun ib => ib.1)).isEmpty = true
  · rw [List.isEmpty_iff] at hemp
    constructor
    · intro hmem
      rw [find_pushable_blocks_eq, if_pos (by rw [hemp]; rfl), hemp] at hmem
      cases hmem
    · intro h
      exfalso
      induction h with
      | seed j hlen hcol hrest hge hle =>
        have hm : (j, (blocks.getD j defBlock).position.2) ∈ columnBlocks block_x blocks :=
          mem_columnBlocks_of_getD block_x blocks j hlen hcol hrest
        have hmemseed : (j, (blocks.getD j defBlock).position.2) ∈ seedsOf p block_x blocks :=
          List.mem_filter.2 ⟨hm, decide_eq_true ⟨hge, hle⟩⟩
        have : j ∈ (seedsOf p block_x blocks).map (fun ib => ib.1) :=
          List.mem_map.2 ⟨_, hmemseed, rfl⟩
        rw [hemp] at this
        cases this
      | step j j' _ _ _ _ _ _ _ ihj => exact ihj
  · obtain ⟨s1, s2, s3⟩ := findPushableLoop_spec blocks block_x p.position.2
      (p.position.2 + p.body_size - 1) (columnBlocks block_x blocks) Hcb
      ((columnBlocks block_x blocks).length + 1)
      ((seedsOf p block_x blocks).map (fun ib => ib.1))
      ((seedsOf p block_x blocks).map (fun ib => ib.2))
      hseednodup hseedsub hseedmem hseedys (by omega)
    constructor
    · intro hmem
      rw [find_pushable_blocks_eq, if_neg hemp] at hmem
      exact s1 i hmem
    · intro h
      rw [find_pushable_blocks_eq, if_neg hemp]
      induction h with
      | seed j hlen hcol hrest hge hle =>
        apply s2
        have hm : (j, (blocks.getD j defBlock).position.2) ∈ columnBlocks block_x blocks :=
          mem_columnBlocks_of_getD block_x blocks j hlen hcol hrest
        exact List.mem_map.2 ⟨_, List.mem_filter.2 ⟨hm, decide_eq_true ⟨hge, hle⟩⟩, rfl⟩
      | step j j' hlen hcol hrest hle hpos hPj hyj ihj =>
        by_contra hni
        have hm : (j, (blocks.getD j defBlock).position.2) ∈ columnBlocks block_x blocks :=
          mem_columnBlocks_of_getD block_x blocks j hlen hcol hrest
        have hcont : (findPushableLoop (columnBlocks block_x blocks)
            (p.position.2 + p.body_size - 1) ((columnBlocks block_x blocks).length + 1)
            ((seedsOf p block_x blocks).map (fun ib => ib.1))
            ((seedsOf p block_x blocks).map (fun ib => ib.2))).contains j = false := by
          rw [← Bool.not_eq_true]
          intro hcx
          exact hni ((contains_iff_mem_nat _ _).1 hcx)
        have hclosed := s3 (j, (blocks.getD j defBlock).position.2) hm hcont hle hpos
        have hjy : yOf blocks j' = (blocks.getD j defBlock).position.2 + 1 := hyj
        have : ((findPushableLoop (columnBlocks block_x blocks)
            (p.position.2 + p.body_size - 1) ((columnBlocks block_x blocks).length + 1)
            ((seedsOf p block_x blocks).map (fun ib => ib.1))
            ((seedsOf p block_x blocks).map (fun ib => ib.2))).map (yOf blocks)).contains
            ((blocks.getD j defBlock).position.2 + 1) = true := by
          apply (contains_iff_mem_nat _ _).2
          exact hjy ▸ List.mem_map_of_mem (yOf blocks) ihj
        rw [this] at hclosed
        cases hclosed

/-- The player of the C7 counterexample: body rows 2 and 3 on a 4×4 grid. -/
def pC7 : Player :=
  { position := (1, 2), in_air := false, is_falling := false, jump_counter := 0,
    just_jumped := false, body_size := 2, fall_delay_counter := 0, grid_size := 4 }

/-- The blocks of the C7 counterexample: a full resting stack in column 0 from
the top row down to the player's head row. -/
def bsC7 : List Block :=
  [{ position := (0, 2), falling := false, carried := false, carrying_direction := none },
   { position := (0, 1), falling := false, carried := false, carrying_direction := none },
   { position := (0, 0), falling := false, carried := false, carrying_direction := none }]

/-- C7 counterexample: pushing column 0, the computed pushable set contains
index 1 (the resting block at `(0, 1)`), and the resting block at the top row
`(0, 0)` (index 2) rests directly on it — the cell `(0, 0 + 1)` holds a block
of the set — yet index 2 is not in the computed set, because the source's
growth step requires `y > 0`.  This refutes the claim's "including a block at
the top row y == 0". -/
theorem claim_C7_counterexample :
    (bsC7.getD 2 defBlock).position = (0, 0) ∧
    (bsC7.getD 2 defBlock).falling = false ∧
    (bsC7.getD 1 defBlock).position = (0, 1) ∧
    (1 ∈ pC7.find_pushable_blocks 0 bsC7) ∧
    ¬ (2 ∈ pC7.find_pushable_blocks 0 bsC7) := by
  decide

/-! ### Claim C10: the player stays inside the grid -/

/-- The player part of the reachability invariant: the stored grid size is the
game's, the body is two cells, the jump and gravity flags are never both set,
and the player's cells lie inside the grid. -/
def PInv (gs : Nat) (p : Player) : Prop :=
  p.grid_size = gs ∧ p.body_size = 2 ∧ (p.in_air = false ∨ p.is_falling = false) ∧
  p.position.1 ≤ gs - 1 ∧ p.position.2 + 2 ≤ gs

/-- The reachability invariant of a game state. -/
def GInv (g : GameState) : Prop := 2 ≤ g.grid_size ∧ PInv g.grid_size g.player

theorem PInv_new (gs : Nat) (hgs : 2 ≤ gs) : PInv gs (Player.new gs) := by
  unfold PInv Player.new
  refine ⟨rfl, rfl, Or.inl rfl, ?_, ?_⟩
  · dsimp only
    split_ifs <;> omega
  · dsimp only
    omega

theorem PInv_update_jump (gs : Nat) (p : Player) (h : PInv gs p) : PInv gs p.update_jump := by
  unfold Player.update_jump
  split_ifs <;> exact h

theorem PInv_update_fall_delay (gs : Nat) (p : Player) (h : PInv gs p) :
    PInv gs p.update_fall_delay := by
  unfold Player.update_fall_delay
  dsimp only
  split_ifs with h1 h2
  · exact ⟨h.1, h.2.1, Or.inl h2.2, h.2.2.2.1, h.2.2.2.2⟩
  · exact h
  · exact h

theorem PInv_update_falling_state (gs : Nat) (p : Player) (bs : List Block) (G : Nat)
    (h : PInv gs p) : PInv gs (p.update_falling_state bs G) := by
  unfold Player.update_falling_state
  split_ifs <;>
    first
    | exact h
    | exact ⟨h.1, h.2.1, Or.inr rfl, h.2.2.2.1, h.2.2.2.2⟩

theorem PInv_jump (gs : Nat) (p : Player) (h : PInv gs p) : PInv gs p.jump := by
  unfold Player.jump
  split_ifs with h1
  · refine ⟨h.1, h.2.1, Or.inr h1.2.1, h.2.2.2.1, ?_⟩
    have := h.2.2.2.2
    dsimp only
    omega
  · exact h

theorem PInv_land (gs : Nat) (p : Player) (bs : List Block) (G : Nat) (h : PInv gs p) :
    PInv gs (p.land bs G) := by
  unfold Player.land
  dsimp only
  split_ifs <;>
    first
    | exact h
    | exact ⟨h.1, h.2.1, Or.inl rfl, h.2.2.2.1, h.2.2.2.2⟩
    | exact ⟨h.1, h.2.1, Or.inr rfl, h.2.2.2.1, h.2.2.2.2⟩

theorem check_support_after_move_fields (q : Player) (G : Nat) (bs : List Block) :
    (q.check_support_after_move G bs).position = q.position ∧
    (q.check_support_after_move G bs).in_air = q.in_air ∧
    (q.check_support_after_move G bs).is_falling = q.is_falling ∧
    (q.check_support_after_move G bs).body_size = q.body_size ∧
    (q.check_support_after_move G bs).grid_size = q.grid_size := by
  unfold Player.check_support_after_move
  split <;> exact ⟨rfl, rfl, rfl, rfl, rfl⟩

theorem PInv_check_support_after_move (gs : Nat) (q : Player) (G : Nat) (bs : List Block)
    (h : PInv gs q) : PInv gs (q.check_support_after_move G bs) := by
  obtain ⟨f1, f2, f3, f4, f5⟩ := check_support_after_move_fields q G bs
  unfold PInv at h ⊢
  rw [f1, f2, f3, f4, f5]
  exact h

theorem handle_block_collision_player (p : Player) (idx : Nat) (mv : Int) (tx G : Nat)
    (bs : List Block) :
    (p.handle_block_collision idx mv tx G bs).1 = p ∨
    (p.handle_block_collision idx mv tx G bs).1 = { p with position := (tx, p.position.2) } := by
  unfold Player.handle_block_collision
  dsimp only
  split
  · exact Or.inl rfl
  · split
    · unfold Player.handle_falling_block_movement
      dsimp only
      split
      · exact Or.inr rfl
      · exact Or.inl rfl
    · unfold Player.handle_normal_block_movement
      dsimp only
      split
      · exact Or.inl rfl
      · split
        · exact Or.inl rfl
        · exact Or.inr rfl

theorem PInv_move_horizontal (gs : Nat) (p : Player) (bs : List Block) (mv : Int)
    (hmv : mv = -1 ∨ mv = 1) (h : PInv gs p) :
    PInv gs (p.move_horizontal mv gs bs).1 := by
  unfold Player.move_horizontal
  split
  · exact h
  · split
    · exact h
    · rename_i hfd hcan
      have hcan' : p.can_move_in_direction mv gs = true := by
        rw [← Bool.not_eq_false]
        exact hcan
      have htx : ((p.position.1 : Int) + mv).toNat ≤ gs - 1 := by
        rcases hmv with rfl | rfl
        · unfold Player.can_move_in_direction at hcan'
          rw [if_pos (by decide : (-1 : Int) < 0)] at hcan'
          have hx : 0 < p.position.1 := of_decide_eq_true hcan'
          have hxle := h.2.2.2.1
          omega
        · unfold Player.can_move_in_direction at hcan'
          rw [if_neg (by decide : ¬ (1 : Int) < 0)] at hcan'
          have hx : p.position.1 < gs - 1 := of_decide_eq_true hcan'
          omega
      dsimp only
      split
      · rename_i idx hfind
        apply PInv_check_support_after_move
        rcases handle_block_collision_player p idx mv (((p.position.1 : Int) + mv).toNat) gs bs
          with heq | heq
        · rw [heq]; exact h
        · rw [heq]
          exact ⟨h.1, h.2.1, h.2.2.1, htx, h.2.2.2.2⟩
      · apply PInv_check_support_after_move
        exact ⟨h.1, h.2.1, h.2.2.1, htx, h.2.2.2.2⟩

theorem PInv_apply_gravity_of_room (gs : Nat) (q : Player) (h : PInv gs q)
    (hy : q.position.2 + 3 ≤ gs) : PInv gs q.apply_gravity := by
  unfold Player.apply_gravity
  split_ifs
  · refine ⟨h.1, h.2.1, h.2.2.1, h.2.2.2.1, ?_⟩
    show q.position.2 + 1 + 2 ≤ gs
    omega
  · exact h

theorem GInv_update_player (g : GameState) (h : GInv g) : GInv g.update_player := by
  obtain ⟨hgs, hp⟩ := h
  refine ⟨hgs, ?_⟩
  show PInv g.grid_size (g.update_player).player
  unfold GameState.update_player
  dsimp only
  apply PInv_land
  have h2 := PInv_update_fall_delay _ _ (PInv_update_jump _ _ hp)
  generalize hP2 : g.player.update_jump.update_fall_delay = p2 at h2 ⊢
  by_cases hair : p2.in_air = true
  · have hq : p2.update_falling_state g.blocks g.grid_size = p2 := by
      unfold Player.update_falling_state
      rw [if_pos hair]
    rw [hq]
    have hnf : p2.is_falling = false := by
      rcases h2.2.2.1 with h' | h'
      · rw [hair] at h'; cases h'
      · exact h'
    rw [if_neg (by rw [hnf]; exact Bool.false_ne_true)]
    exact h2
  · have hair' : p2.in_air = false := by
      rw [← Bool.not_eq_true]; exact hair
    by_cases hsup : p2.has_support g.blocks g.grid_size = false
    · have hlt : p2.position.2 < g.grid_size - p2.body_size := by
        by_contra hge
        unfold Player.has_support at hsup
        rw [if_pos (Nat.not_lt.1 hge)] at hsup
        cases hsup
      have hbody := h2.2.1
      rw [hbody] at hlt
      have hq : p2.update_falling_state g.blocks g.grid_size =
          (if p2.is_falling = false ∧ p2.fall_delay_counter = 0 then
            { p2 with fall_delay_counter := FALL_DELAY } else p2) := by
        unfold Player.update_falling_state
        rw [if_neg (by rw [hair']; exact Bool.false_ne_true), if_pos hsup]
      rw [hq]
      split_ifs with hfresh hg hg
      · exact PInv_apply_gravity_of_room _ _ h2
          (by show p2.position.2 + 3 ≤ g.grid_size; omega)
      · exact h2
      · exact PInv_apply_gravity_of_room _ _ h2
          (by show p2.position.2 + 3 ≤ g.grid_size; omega)
      · exact h2
    · have hsup' : p2.has_support g.blocks g.grid_size = true := by
        rw [← Bool.not_eq_false]; exact hsup
      have hq : p2.update_falling_state g.blocks g.grid_size =
          { p2 with is_falling := false, fall_delay_counter := 0 } := by
        unfold Player.update_falling_state
        rw [if_neg (by rw [hair']; exact Bool.false_ne_true),
          if_neg (by simp [hsup'])]
      rw [hq]
      rw [if_neg (show ¬ (({ p2 with is_falling := false, fall_delay_counter := 0 } :
        Player).is_falling = true) from Bool.false_ne_true)]
      obtain ⟨i1, i2, i3, i4, i5⟩ := h2
      exact ⟨i1, i2, Or.inr rfl, i4, i5⟩

theorem handle_block_spawning_player (g : GameState) :
    (g.handle_block_spawning).player = g.player ∧
    (g.handle_block_spawning).grid_size = g.grid_size := by
  unfold GameState.handle_block_spawning
  dsimp only
  split_ifs <;> exact ⟨rfl, rfl⟩

theorem checkRowsAux_player (g : GameState) (rows : List Nat) :
    (checkRowsAux g rows).player = g.player ∧ (checkRowsAux g rows).grid_size = g.grid_size := by
  induction rows with
  | nil => exact ⟨rfl, rfl⟩
  | cons row rest ih =>
    rw [show checkRowsAux g (row :: rest) =
        (if g.blocks.countP (fun b => !b.falling && b.position.2 == row) = g.grid_size then
          GameState.check_for_levitating_blocks
            { g with blocks := g.blocks.filter (fun b => b.position.2 != row)
                     score := g.score + 1 }
         else checkRowsAux g rest) from rfl]
    split_ifs
    · exact ⟨rfl, rfl⟩
    · exact ih

theorem update_blocks_player (g : GameState) :
    (g.update_blocks).player = g.player ∧ (g.update_blocks).grid_size = g.grid_size := by
  unfold GameState.update_blocks GameState.check_full_rows
  obtain ⟨h1, h2⟩ := checkRowsAux_player
    (((g.update_falling_blocks).handle_block_spawning).check_for_levitating_blocks) _
  obtain ⟨s1, s2⟩ := handle_block_spawning_player g.update_falling_blocks
  constructor
  · rw [h1]
    show ((g.update_falling_blocks).handle_block_spawning).player = g.player
    rw [s1]
    rfl
  · rw [h2]
    show ((g.update_falling_blocks).handle_block_spawning).grid_size = g.grid_size
    rw [s2]
    rfl

theorem GInv_update_blocks (g : GameState) (h : GInv g) : GInv g.update_blocks := by
  obtain ⟨h1, h2⟩ := update_blocks_player g
  exact ⟨by rw [h2]; exact h.1, by rw [h2, h1]; exact h.2⟩

theorem GInv_update (g : GameState) (fired : Bool) (h : GInv g) : GInv (g.update fired).1 := by
  by_cases hgo : g.game_over = true
  · have heq : g.update fired = (g, GameUpdateResult.GameOver) := by
      unfold GameState.update
      rw [if_pos hgo]
    rw [heq]
    exact h
  · unfold GameState.update
    rw [if_neg hgo]
    dsimp only
    split_ifs <;>
      first
      | exact GInv_update_blocks _ (GInv_update_player g h)
      | exact h

theorem GInv_restart (g : GameState) (h2 : 2 ≤ g.grid_size) : GInv g.restart := by
  refine ⟨h2, ?_⟩
  show PInv g.grid_size (Player.new g.grid_size)
  exact PInv_new _ h2

theorem GInv_processInputTail (g : GameState) (h : GInv g) : GInv (processInputTail g).1 :=
  ⟨h.1, h.2⟩

theorem GInv_process_input (g : GameState) (a : InputAction) (ready : Bool) (h : GInv g) :
    GInv (g.process_input a ready).1 := by
  unfold GameState.process_input
  by_cases hgo : g.game_over = true
  · rw [if_pos hgo]
    split_ifs with ha
    · exact GInv_restart g h.1
    · exact h
  · rw [if_neg hgo]
    cases a with
    | Left =>
      dsimp only
      apply GInv_processInputTail
      split_ifs with hr
      · refine ⟨h.1, ?_⟩
        show PInv g.grid_size (g.player.move_left g.blocks).1
        unfold Player.move_left
        have hpg : g.player.grid_size = g.grid_size := h.2.1
        rw [hpg]
        exact PInv_move_horizontal _ _ _ _ (Or.inl rfl) h.2
      · exact h
    | Right =>
      dsimp only
      apply GInv_processInputTail
      split_ifs with hr
      · refine ⟨h.1, ?_⟩
        show PInv g.grid_size (g.player.move_right g.blocks).1
        unfold Player.move_right
        have hpg : g.player.grid_size = g.grid_size := h.2.1
        rw [hpg]
        exact PInv_move_horizontal _ _ _ _ (Or.inr rfl) h.2
      · exact h
    | Up =>
      dsimp only
      apply GInv_processInputTail
      exact ⟨h.1, PInv_jump _ _ h.2⟩
    | Restart => exact GInv_restart g h.1
    | None =>
      dsimp only
      apply GInv_processInputTail
      exact ⟨h.1, h.2⟩

theorem GInv_new (config : GameConfig) (rng : List Nat) (h : 2 ≤ config.grid_size) :
    GInv (GameState.new config rng) := by
  refine ⟨h, ?_⟩
  show PInv config.grid_size (Player.new config.grid_size)
  exact PInv_new _ h

/-- The states reachable from `GameState::new` (with a non-degenerate grid,
`grid_size ≥ 2`) by any sequence of `process_input`, `update` and `restart`
calls, for every outcome of the external timers and of the spawn randomness. -/
inductive Reachable : GameState → Prop where
  | init : ∀ (config : GameConfig) (rng : List Nat), 2 ≤ config.grid_size →
      Reachable (GameState.new config rng)
  | update_step : ∀ (g : GameState) (fired : Bool), Reachable g →
      Reachable (g.update fired).1
  | input_step : ∀ (g : GameState) (a : InputAction) (ready : Bool), Reachable g →
      Reachable (g.process_input a ready).1
  | restart_step : ∀ g : GameState, Reachable g → Reachable g.restart

/-- C10: in every reachable game state the player stays inside the grid:
`position.1 ≤ grid_size - 1` and `position.2 + body_size ≤ grid_size`.
Support is checked (clearing `is_falling`) before gravity is applied each
tick, so the player never descends below the bottom row, and the horizontal
boundary guards keep the column in range. -/
theorem claim_C10_player_in_grid (g : GameState) (h : Reachable g) :
    g.player.position.1 ≤ g.grid_size - 1 ∧
    g.player.position.2 + g.player.body_size ≤ g.grid_size := by
  have hInv : GInv g := by
    induction h with
    | init config rng hgs => exact GInv_new config rng hgs
    | update_step g fired _ ih => exact GInv_update g fired ih
    | input_step g a ready _ ih => exact GInv_process_input g a ready ih
    | restart_step g _ ih => exact GInv_restart g ih.1
  obtain ⟨hgs, _, hbody, _, hx, hy⟩ := hInv
  exact ⟨hx, by rw [hbody]; exact hy⟩

/-- The configuration of the C10 witness: a 4×4 grid. -/
def cfgC10 : GameConfig :=
  { grid_size := 4, cell_size := 1, refresh_rate_milliseconds := 100,
    block_fall_speed := 1, block_spawn_rate := 2 }

/-- Witness for C10 at the initial state of a concrete 4×4 game. -/
theorem claim_C10_witness :
    (GameState.new cfgC10 [0]).player.position.1 ≤ (GameState.new cfgC10 [0]).grid_size - 1 ∧
    (GameState.new cfgC10 [0]).player.position.2 + (GameState.new cfgC10 [0]).player.body_size ≤
      (GameState.new cfgC10 [0]).grid_size :=
  claim_C10_player_in_grid _ (Reachable.init cfgC10 [0] (by decide))

end StackAttack
